import Mathlib

/-!
# Verification of the Deep500 recipe engine (`recipes/recipe.py`)

This file gives a shallow embedding of `run_recipe` and proves the stated
properties of its configuration merging, argument normalization, component
resolution, training invocation and metric-verdict evaluation.

Python dictionaries are modelled as insertion-ordered association lists,
opaque Python objects as the inductive type `Value`, and the external
collaborators (`d5ds.dataset_loss`, `d5ds.dataset_shape`, `d5nt.create_model`,
`d5ds.load_dataset`, `d5.test_training`, plus ordinary calls of configured
factories) as an environment `Env` of total functions.  The caller-visible
mutable objects (`fixed`, `mutable`, the `metrics` list) live in a state
record `St` threaded by an `EStateM` computation, together with an
observational trace of every collaborator invocation; `EStateM` preserves the
state on `throw`, exactly as a Python exception leaves already-performed
mutations in place.
-/

set_option maxHeartbeats 1000000

/-- Opaque Python values: strings, numbers, `None`, tuples, lists,
dictionaries, and atoms standing for arbitrary Python objects (factories,
datasets, networks, metric objects, ...). -/
inductive Value where
  | vstr (s : String)
  | vnat (n : Nat)
  | vint (i : Int)
  | vnone
  | vtuple (vs : List Value)
  | vlist (vs : List Value)
  | vdict (d : List (String × Value))
  | vatom (n : Nat)

/-- A Python `dict` with string keys, as an insertion-ordered association
list without duplicate keys (operations below maintain Python semantics). -/
abbrev Dict := List (String × Value)

/-- First value bound to key `k` (Python `d[k]` lookup). -/
def dfind : Dict → String → Option Value
  | [], _ => none
  | (k2, v) :: rest, k => if k2 = k then some v else dfind rest k

/-- Python `k in d`. -/
def dcontains (d : Dict) (k : String) : Bool :=
  (dfind d k).isSome

/-- Python `d[k] = v`: replace the value at an existing key in place,
otherwise append the new binding at the end. -/
def dinsert : Dict → String → Value → Dict
  | [], k, v => [(k, v)]
  | (k2, v2) :: rest, k, v =>
      if k2 = k then (k2, v) :: rest else (k2, v2) :: dinsert rest k v

/-- Python `list(d.keys())` in insertion order. -/
def dkeys (d : Dict) : List String :=
  d.map Prod.fst

/-- Python `s.endswith(suff)`, via the character lists of the strings. -/
def endsWithStr (s suff : String) : Bool :=
  suff.data.isSuffixOf s.data

/-- Exceptions raised by `run_recipe`: `RuntimeError` (fixed/mutable
overlap), `SyntaxError` (missing required component), and the implicit
`KeyError` / `TypeError` / `IndexError` of dictionary lookup, argument
unpacking and tuple indexing. -/
inductive Err where
  | runtimeError (msg : String)
  | syntaxError (msg : String)
  | keyError (k : String)
  | typeError
  | indexError
  deriving DecidableEq

/-- One collaborator invocation, recorded with its arguments. -/
inductive Event where
  | datasetLoss (ds : Value)
  | datasetShape (ds : Value)
  | createModel (model batch : Value) (args : List Value) (shape : List Value)
      (kwargs : Dict)
  | lossOpCall (lossOp : Value) (args : List Value)
  | addOperation (network op : Value)
  | loadDataset (ds input label : Value) (args : List Value) (kwargs : Dict)
  | samplerCall (factory dsHandle batch : Value) (args : List Value)
      (kwargs : Dict)
  | executorCall (factory network : Value) (args : List Value) (kwargs : Dict)
  | optimizerCall (factory executor loss : Value) (args : List Value)
      (kwargs : Dict)
  | testTraining (executor trainSampler validationSampler optimizer
      epochs batch output : Value) (metricVals : List Value) (events : Value)

/-- `true` exactly on training-loop invocations. -/
def isTestTrainingEv : Event → Bool
  | Event.testTraining _ _ _ _ _ _ _ _ _ => true
  | _ => false

/-- Console output of the verification loop: one `FAIL` line per failing
metric, and a final `PASSED` line on overall success. -/
inductive Diag where
  | fail (metric : Value) (result acceptable : Int)
  | passed

/-- The external collaborators, as total functions.  `call` is ordinary
Python application of a configured factory to positional and keyword
arguments. -/
structure Env where
  dataset_loss : Value → Value
  dataset_shape : Value → List Value
  create_model : Value → Value → List Value → List Value → Dict →
      Value × Value × Value
  add_operation : Value → Value → Value
  load_dataset : Value → Value → Value → List Value → Dict → Value × Value
  call : Value → List Value → Dict → Value
  test_training : Value → Value → Value → Value → Value → Value → Value →
      List Value → Value → List Int
  wallclockTime : Value

/-- The mutable objects visible to the caller of `run_recipe` (`fixed`,
`mutable`, the `metrics` list) together with the observational outputs: the
collaborator trace, the printed diagnostics, and the raw results returned by
the training loop. -/
structure St where
  fixed : Dict
  mutable : Dict
  metrics : List (Value × Option Int)
  trace : List Event
  diags : List Diag
  results : Option (List Int)

/-- The recipe computation: state `St`, exceptions `Err`.  `EStateM` keeps
the state on `throw`, matching Python's exception semantics. -/
abbrev RecipeM := EStateM Err St

/-- Record a collaborator invocation. -/
def emit (e : Event) : RecipeM PUnit :=
  modify fun s => { s with trace := s.trace ++ [e] }

/-- Run an exception-only step inside the recipe computation. -/
def liftE {α : Type} : Except Err α → RecipeM α
  | Except.ok a => pure a
  | Except.error e => throw e

/-- Python `comps[k]`, raising `KeyError` when absent. -/
def getKeyE (comps : Dict) (k : String) : Except Err Value :=
  match dfind comps k with
  | some v => Except.ok v
  | none => Except.error (Err.keyError k)

/-- Python `*v` unpacking: tuples and lists unpack, anything else raises
`TypeError`. -/
def asTupleE : Value → Except Err (List Value)
  | Value.vtuple l => Except.ok l
  | Value.vlist l => Except.ok l
  | _ => Except.error Err.typeError

/-- Python `**v` unpacking: dictionaries unpack, anything else raises
`TypeError`. -/
def asDictE : Value → Except Err Dict
  | Value.vdict d => Except.ok d
  | _ => Except.error Err.typeError

/-- Fetch and unpack `comps[k + "_args"]`. -/
def getArgsE (comps : Dict) (k : String) : Except Err (List Value) := do
  let v ← getKeyE comps (k ++ "_args")
  asTupleE v

/-- Fetch and unpack `comps[k + "_kwargs"]`. -/
def getKwargsE (comps : Dict) (k : String) : Except Err Dict := do
  let v ← getKeyE comps (k ++ "_kwargs")
  asDictE v

/-- The reserved keys that skip args/kwargs completion. -/
def reservedKeys : List String :=
  ["batch_size", "epochs", "events"]

/-- `any(k in mutable for k in fixed.keys())`. -/
def hasOverlap (fixed mutable : Dict) : Bool :=
  (dkeys fixed).any fun k => dcontains mutable k

/-- `comps = dict(fixed, **mutable)`: copy `fixed`, then update with every
binding of `mutable` in order. -/
def mergeDicts (fixed mutable : Dict) : Dict :=
  mutable.foldl (fun c p => dinsert c p.1 p.2) fixed

/-- The body of the normalization loop for one snapshotted key `k`:
if `k` is not reserved and not already `_args` / `_kwargs`-suffixed, default
`k_args` to the empty tuple and `k_kwargs` to the empty dict when absent. -/
def completeKey (c : Dict) (k : String) : Dict :=
  if reservedKeys.contains k || endsWithStr k "_args" ||
      endsWithStr k "_kwargs" then c
  else
    let c1 := if dcontains c (k ++ "_args") then c
      else dinsert c (k ++ "_args") (Value.vtuple [])
    if dcontains c1 (k ++ "_kwargs") then c1
    else dinsert c1 (k ++ "_kwargs") (Value.vdict [])

/-- `old_keys = list(comps.keys())` followed by the completion loop over the
snapshot. -/
def addMissingArgs (comps : Dict) : Dict :=
  (dkeys comps).foldl completeKey comps

/-- Lines 40-54: overlap check, unified dictionary, argument completion. -/
def stageMerge (fixed mutable : Dict) : RecipeM Dict := do
  if hasOverlap fixed mutable then
    throw (Err.runtimeError "Fixed and mutable components cannot overlap")
  pure (addMissingArgs (mergeDicts fixed mutable))

/-- Lines 57-63: dataset requirement, loss constructor, shape metadata,
`ds_classes, sample_shape = ds_shape[0], ds_shape[1:]` (the head access
raises `IndexError` on an empty shape).  Returns the dataset descriptor, the
loss constructor and the sample shape. -/
def stageDatasetMeta (env : Env) (comps : Dict) :
    RecipeM (Value × Value × List Value) := do
  if !dcontains comps "dataset" then
    throw (Err.syntaxError "Dataset must be specified in training recipe")
  let dataset ← liftE (getKeyE comps "dataset")
  emit (Event.datasetLoss dataset)
  let loss_op := env.dataset_loss dataset
  emit (Event.datasetShape dataset)
  let ds_shape := env.dataset_shape dataset
  match ds_shape with
  | [] => throw Err.indexError
  | _ :: sample_shape => pure (dataset, loss_op, sample_shape)

/-- Lines 65-78: model and batch-size requirements, model instantiation with
`(batch, *model_args, shape=sample_shape, **model_kwargs)`, and attachment of
`loss_op([output_node, 'label'], 'loss')` to the network.  Returns the
network (after the attachment), the batch size and the two node names. -/
def stageNetwork (env : Env) (comps : Dict) (loss_op : Value)
    (sample_shape : List Value) : RecipeM (Value × Value × Value × Value) := do
  if !dcontains comps "model" then
    throw (Err.syntaxError "Model must be specified in recipe")
  if !dcontains comps "batch_size" then
    throw (Err.syntaxError "Batch size must be specified in training recipe")
  let batch ← liftE (getKeyE comps "batch_size")
  let model ← liftE (getKeyE comps "model")
  let margs ← liftE (getArgsE comps "model")
  let mkwargs ← liftE (getKwargsE comps "model")
  emit (Event.createModel model batch margs sample_shape mkwargs)
  let res := env.create_model model batch margs sample_shape mkwargs
  let network := res.1
  let input_node := res.2.1
  let output_node := res.2.2
  emit (Event.lossOpCall loss_op
    [Value.vlist [output_node, Value.vstr "label"], Value.vstr "loss"])
  let op := env.call loss_op
    [Value.vlist [output_node, Value.vstr "label"], Value.vstr "loss"] []
  emit (Event.addOperation network op)
  let network2 := env.add_operation network op
  pure (network2, batch, input_node, output_node)

/-- Lines 80-83: `load_dataset(comps['dataset'], input_node, 'label',
*dataset_args, **dataset_kwargs)`, producing the two dataset handles. -/
def stageData (env : Env) (comps : Dict) (dataset input_node : Value) :
    RecipeM (Value × Value) := do
  let dargs ← liftE (getArgsE comps "dataset")
  let dkwargs ← liftE (getKwargsE comps "dataset")
  emit (Event.loadDataset dataset input_node (Value.vstr "label") dargs dkwargs)
  pure (env.load_dataset dataset input_node (Value.vstr "label") dargs dkwargs)

/-- Lines 85-97: the two sampler blocks: a configured sampler factory is
applied to `(dataset, batch, *args, **kwargs)`; an absent key falls back to
the raw dataset handle. -/
def stageSamplers (env : Env) (comps : Dict) (batch train_set
    validation_set : Value) : RecipeM (Value × Value) := do
  let train_sampler ←
    if dcontains comps "train_sampler" then do
      let f ← liftE (getKeyE comps "train_sampler")
      let args ← liftE (getArgsE comps "train_sampler")
      let kwargs ← liftE (getKwargsE comps "train_sampler")
      emit (Event.samplerCall f train_set batch args kwargs)
      pure (env.call f ([train_set, batch] ++ args) kwargs)
    else pure train_set
  let validation_sampler ←
    if dcontains comps "validation_sampler" then do
      let f ← liftE (getKeyE comps "validation_sampler")
      let args ← liftE (getArgsE comps "validation_sampler")
      let kwargs ← liftE (getKwargsE comps "validation_sampler")
      emit (Event.samplerCall f validation_set batch args kwargs)
      pure (env.call f ([validation_set, batch] ++ args) kwargs)
    else pure validation_set
  pure (train_sampler, validation_sampler)

/-- Lines 99-103: executor requirement and construction with
`(network, *executor_args, **executor_kwargs)`. -/
def stageExecutor (env : Env) (comps : Dict) (network : Value) :
    RecipeM Value := do
  if !dcontains comps "executor" then
    throw (Err.syntaxError "Executor must be specified in recipe")
  let f ← liftE (getKeyE comps "executor")
  let args ← liftE (getArgsE comps "executor")
  let kwargs ← liftE (getKwargsE comps "executor")
  emit (Event.executorCall f network args kwargs)
  pure (env.call f ([network] ++ args) kwargs)

/-- Lines 105-109: optimizer requirement and construction with
`(executor, 'loss', *optimizer_args, **optimizer_kwargs)`. -/
def stageOptimizer (env : Env) (comps : Dict) (executor : Value) :
    RecipeM Value := do
  if !dcontains comps "optimizer" then
    throw (Err.syntaxError "Optimizer must be specified in training recipe")
  let f ← liftE (getKeyE comps "optimizer")
  let args ← liftE (getArgsE comps "optimizer")
  let kwargs ← liftE (getKwargsE comps "optimizer")
  emit (Event.optimizerCall f executor (Value.vstr "loss") args kwargs)
  pure (env.call f ([executor, Value.vstr "loss"] ++ args) kwargs)

/-- Lines 111-124: `metrics.append((WallclockTime(...), None))` on the
caller's list, the epochs requirement, the events default, and the
`test_training` invocation with `metrics=[m[0] for m in metrics]`. -/
def stageTrain (env : Env) (comps : Dict) (executor train_sampler
    validation_sampler optimizer batch output_node : Value) :
    RecipeM (List Int) := do
  modify fun s => { s with metrics := s.metrics ++ [(env.wallclockTime, none)] }
  if !dcontains comps "epochs" then
    throw (Err.syntaxError "Epochs must be specified in training recipe")
  let epochs ← liftE (getKeyE comps "epochs")
  let comps2 := if dcontains comps "events" then comps
    else dinsert comps "events" Value.vnone
  let events ← liftE (getKeyE comps2 "events")
  let s ← get
  let metricVals := s.metrics.map Prod.fst
  emit (Event.testTraining executor train_sampler validation_sampler optimizer
    epochs batch output_node metricVals events)
  let results := env.test_training executor train_sampler validation_sampler
    optimizer epochs batch output_node metricVals events
  modify fun s2 => { s2 with results := some results }
  pure results

/-- The body of the result-verification loop for one `(metric, acceptable),
result` pair: a non-`None` threshold with `result < acceptable` prints a
`FAIL` line and clears the flag. -/
def verifyStep (acc : Bool × List Diag) (p : (Value × Option Int) × Int) :
    Bool × List Diag :=
  match p with
  | ((metric, acceptable), result) =>
    match acceptable with
    | some a =>
        if result < a then (false, acc.2 ++ [Diag.fail metric result a])
        else acc
    | none => acc

/-- Lines 127-132: the verification loop over
`zip(metrics, results)`, accumulating the `ok` flag and the printed
diagnostics. -/
def verifyLoop (pairs : List ((Value × Option Int) × Int)) :
    Bool × List Diag :=
  pairs.foldl verifyStep (true, [])

/-- Lines 126-138: run the verification loop over the (mutated) metrics list
zipped with the results, print `PASSED` on success, and return the
verdict. -/
def stageVerify (results : List Int) : RecipeM Bool := do
  let s ← get
  let pairs := s.metrics.zip results
  let r := verifyLoop pairs
  modify fun s2 => { s2 with diags := s2.diags ++ r.2 }
  if r.1 then do
    modify fun s2 => { s2 with diags := s2.diags ++ [Diag.passed] }
    pure true
  else pure false

/-- The whole of `run_recipe`, reading `fixed` and `mutable` from the heap
and chaining the stages in the source's order. -/
def runRecipeM (env : Env) : RecipeM Bool := do
  let s0 ← get
  let comps ← stageMerge s0.fixed s0.mutable
  let meta ← stageDatasetMeta env comps
  let dataset := meta.1
  let loss_op := meta.2.1
  let sample_shape := meta.2.2
  let net ← stageNetwork env comps loss_op sample_shape
  let network := net.1
  let batch := net.2.1
  let input_node := net.2.2.1
  let output_node := net.2.2.2
  let sets ← stageData env comps dataset input_node
  let samplers ← stageSamplers env comps batch sets.1 sets.2
  let executor ← stageExecutor env comps network
  let optimizer ← stageOptimizer env comps executor
  let results ← stageTrain env comps executor samplers.1 samplers.2 optimizer
    batch output_node
  stageVerify results

/-- The observable outcome of one `run_recipe` call: the returned verdict or
raised exception, the final state of the caller's three mutable objects, the
collaborator trace, the printed diagnostics, and the raw training results. -/
structure RunOutcome where
  result : Except Err Bool
  fixedFinal : Dict
  mutableFinal : Dict
  metricsFinal : List (Value × Option Int)
  trace : List Event
  diags : List Diag
  results : Option (List Int)

/-- `run_recipe(fixed, mutable, metrics)` under the collaborators `env`. -/
def run_recipe (env : Env) (fixed mutable : Dict)
    (metrics : List (Value × Option Int)) : RunOutcome :=
  match (runRecipeM env).run
      { fixed := fixed, mutable := mutable, metrics := metrics,
        trace := [], diags := [], results := none } with
  | EStateM.Result.ok b s =>
      { result := Except.ok b, fixedFinal := s.fixed,
        mutableFinal := s.mutable, metricsFinal := s.metrics,
        trace := s.trace, diags := s.diags, results := s.results }
  | EStateM.Result.error e s =>
      { result := Except.error e, fixedFinal := s.fixed,
        mutableFinal := s.mutable, metricsFinal := s.metrics,
        trace := s.trace, diags := s.diags, results := s.results }

/-- The six required configuration keys, in the order the source checks
them. -/
def requiredKeys : List String :=
  ["dataset", "model", "batch_size", "executor", "optimizer", "epochs"]

/-- The error message raised for each missing required key. -/
def requiredMsg : String → String
  | "dataset" => "Dataset must be specified in training recipe"
  | "model" => "Model must be specified in recipe"
  | "batch_size" => "Batch size must be specified in training recipe"
  | "executor" => "Executor must be specified in recipe"
  | "optimizer" => "Optimizer must be specified in training recipe"
  | "epochs" => "Epochs must be specified in training recipe"
  | _ => ""

/-- The display name of each required component, as it appears at the head
of its error message. -/
def requiredTitle : String → String
  | "dataset" => "Dataset"
  | "model" => "Model"
  | "batch_size" => "Batch size"
  | "executor" => "Executor"
  | "optimizer" => "Optimizer"
  | "epochs" => "Epochs"
  | _ => ""

/-- Both companion argument keys of `k` are present and well-typed: `k_args`
is bound to a tuple and `k_kwargs` to a dictionary. -/
def ArgsOk (comps : Dict) (k : String) : Prop :=
  (∃ l, dfind comps (k ++ "_args") = some (Value.vtuple l)) ∧
  (∃ d, dfind comps (k ++ "_kwargs") = some (Value.vdict d))

/-- How one optional sampler key resolves: absent, yielding the raw dataset
handle and no event; or present with well-typed companions, yielding the
factory applied to `(dataset, batch, *args, **kwargs)` and one
`samplerCall` event. -/
def SamplerRes (env : Env) (comps : Dict) (key : String)
    (dsHandle batch out : Value) (tr : List Event) : Prop :=
  (dcontains comps key = false ∧ out = dsHandle ∧ tr = []) ∨
  (∃ f args kw, dfind comps key = some f ∧
    dfind comps (key ++ "_args") = some (Value.vtuple args) ∧
    dfind comps (key ++ "_kwargs") = some (Value.vdict kw) ∧
    out = env.call f ([dsHandle, batch] ++ args) kw ∧
    tr = [Event.samplerCall f dsHandle batch args kw])

/-- How the `events` entry resolves: the configured value when present,
`None` otherwise. -/
def EventsRes (comps : Dict) (ev : Value) : Prop :=
  (dcontains comps "events" = true ∧ dfind comps "events" = some ev) ∨
  (dcontains comps "events" = false ∧ ev = Value.vnone)

/-- The failure diagnostic one `(metric, threshold), result` pair
contributes: a `FAIL` line exactly when the threshold is not `None` and the
result is strictly below it. -/
def failOf (p : (Value × Option Int) × Int) : Option Diag :=
  match p with
  | ((m, some t), r) => if r < t then some (Diag.fail m r t) else none
  | ((_, none), _) => none

/-- Append `es` to the recorded trace of a state. -/
def addTrace (s : St) (es : List Event) : St :=
  { s with trace := s.trace ++ es }

/-- The state reached by a finished computation, whether it returned or
raised. -/
def resState {α : Type} : EStateM.Result Err St α → St
  | EStateM.Result.ok _ s => s
  | EStateM.Result.error _ s => s

/-- A computation that never changes the caller's `fixed` and `mutable`
dictionaries nor the caller's `metrics` list, whether it returns or
raises. -/
def Keeps3 {α : Type} (m : RecipeM α) : Prop :=
  ∀ s, (resState (m.run s)).fixed = s.fixed ∧
    (resState (m.run s)).mutable = s.mutable ∧
    (resState (m.run s)).metrics = s.metrics

/-- A computation that never changes the caller's `fixed` and `mutable`
dictionaries, whether it returns or raises. -/
def KeepsFM {α : Type} (m : RecipeM α) : Prop :=
  ∀ s, (resState (m.run s)).fixed = s.fixed ∧
    (resState (m.run s)).mutable = s.mutable

/-- A concrete environment of collaborators for evaluating the embedding on
closed inputs. -/
def envA : Env where
  dataset_loss := fun _ => Value.vatom 100
  dataset_shape := fun _ => [Value.vnat 10, Value.vnat 28, Value.vnat 28]
  create_model := fun _ _ _ _ _ =>
    (Value.vatom 1, Value.vstr "in", Value.vstr "out")
  add_operation := fun n _ => n
  load_dataset := fun _ _ _ _ _ => (Value.vatom 2, Value.vatom 3)
  call := fun f args _ => Value.vtuple (f :: args)
  test_training := fun _ _ _ _ _ _ _ ms _ => ms.map fun _ => (1 : Int)
  wallclockTime := Value.vatom 9

/-- A fixed-component map for concrete runs. -/
def fixedA : Dict :=
  [("model", Value.vatom 11), ("executor", Value.vatom 12)]

/-- A mutable-component map for concrete runs, disjoint from `fixedA`. -/
def mutableA : Dict :=
  [("dataset", Value.vatom 13), ("batch_size", Value.vnat 32),
   ("epochs", Value.vnat 5), ("optimizer", Value.vatom 14)]

/-- A mutable-component map lacking `epochs`, for the missing-key runs. -/
def mutableB : Dict :=
  [("dataset", Value.vatom 13), ("batch_size", Value.vnat 32),
   ("optimizer", Value.vatom 14)]

/-- A mutable-component map that also configures a train sampler. -/
def mutableC : Dict :=
  [("dataset", Value.vatom 13), ("batch_size", Value.vnat 32),
   ("epochs", Value.vnat 5), ("optimizer", Value.vatom 14),
   ("train_sampler", Value.vatom 15)]

/-- A one-entry metric-request list for concrete runs. -/
def metricsA : List (Value × Option Int) :=
  [(Value.vatom 21, some 0)]

/-! ## Running the monad: pointwise equations -/

theorem run_bind {α β : Type} (x : RecipeM α) (f : α → RecipeM β) (s : St) :
    (x >>= f).run s = match x.run s with
      | EStateM.Result.ok a s2 => (f a).run s2
      | EStateM.Result.error e s2 => EStateM.Result.error e s2 := by
  cases hx : x.run s with
  | ok a s2 =>
    simp only [EStateM.run] at hx
    simp only [Bind.bind, EStateM.bind, EStateM.run, hx]
  | error e s2 =>
    simp only [EStateM.run] at hx
    simp only [Bind.bind, EStateM.bind, EStateM.run, hx]

theorem run_bind2 {α β : Type} (x : RecipeM α) (f : α → RecipeM β) (s : St) :
    (EStateM.bind x f).run s = match x.run s with
      | EStateM.Result.ok a s2 => (f a).run s2
      | EStateM.Result.error e s2 => EStateM.Result.error e s2 :=
  run_bind x f s

theorem run_pure {α : Type} (a : α) (s : St) :
    (pure a : RecipeM α).run s = EStateM.Result.ok a s := rfl

theorem run_throw {α : Type} (e : Err) (s : St) :
    (throw e : RecipeM α).run s = EStateM.Result.error e s := rfl

theorem run_get (s : St) : (get : RecipeM St).run s = EStateM.Result.ok s s :=
  rfl

theorem run_modify (f : St → St) (s : St) :
    (modify f : RecipeM PUnit).run s = EStateM.Result.ok PUnit.unit (f s) :=
  rfl

theorem run_emit (e : Event) (s : St) :
    (emit e).run s = EStateM.Result.ok PUnit.unit (addTrace s [e]) := rfl

theorem run_liftE_ok {α : Type} (a : α) (s : St) :
    (liftE (Except.ok a)).run s = EStateM.Result.ok a s := rfl

theorem run_liftE_error {α : Type} (e : Err) (s : St) :
    (liftE (Except.error e) : RecipeM α).run s = EStateM.Result.error e s :=
  rfl

theorem run_map {α β : Type} (g : α → β) (x : RecipeM α) (s : St) :
    (g <$> x).run s = match x.run s with
      | EStateM.Result.ok a s2 => EStateM.Result.ok (g a) s2
      | EStateM.Result.error e s2 => EStateM.Result.error e s2 := by
  cases hx : x.run s with
  | ok a s2 =>
    simp only [EStateM.run] at hx
    simp only [Functor.map, EStateM.map, EStateM.run, hx]
  | error e s2 =>
    simp only [EStateM.run] at hx
    simp only [Functor.map, EStateM.map, EStateM.run, hx]

theorem run_liftE {α : Type} (x : Except Err α) (s : St) :
    (liftE x).run s = match x with
      | Except.ok a => EStateM.Result.ok a s
      | Except.error e => EStateM.Result.error e s := by
  cases x <;> rfl

/-! ## Dictionary lemmas -/

theorem dfind_append (c d : Dict) (k : String) :
    dfind (c ++ d) k = match dfind c k with
      | some v => some v
      | none => dfind d k := by
  induction c with
  | nil => simp [dfind]
  | cons p rest ih =>
    by_cases h : p.1 = k
    · simp [dfind, h]
    · simp [dfind, h, ih]

theorem dfind_append_left {c : Dict} {k : String} {v : Value} (d : Dict)
    (h : dfind c k = some v) : dfind (c ++ d) k = some v := by
  rw [dfind_append, h]

theorem dcontains_eq_false_iff {c : Dict} {k : String} :
    dcontains c k = false ↔ dfind c k = none := by
  unfold dcontains
  cases dfind c k <;> simp

theorem dcontains_eq_true_iff {c : Dict} {k : String} :
    dcontains c k = true ↔ ∃ v, dfind c k = some v := by
  unfold dcontains
  cases dfind c k <;> simp

theorem dcontains_append_left {c : Dict} {k : String} (d : Dict)
    (h : dcontains c k = true) : dcontains (c ++ d) k = true := by
  rw [dcontains_eq_true_iff] at h ⊢
  obtain ⟨v, hv⟩ := h
  exact ⟨v, dfind_append_left d hv⟩

theorem dfind_mem {c : Dict} {k : String} {v : Value}
    (h : dfind c k = some v) : (k, v) ∈ c := by
  induction c with
  | nil => simp [dfind] at h
  | cons p rest ih =>
    obtain ⟨k1, v1⟩ := p
    by_cases hk : k1 = k
    · subst hk
      simp [dfind] at h
      subst h
      exact List.mem_cons_self _ _
    · simp only [dfind, if_neg hk] at h
      exact List.mem_cons_of_mem _ (ih h)

theorem dinsert_of_not_contains {c : Dict} {k : String} (v : Value)
    (h : dcontains c k = false) : dinsert c k v = c ++ [(k, v)] := by
  induction c with
  | nil => simp [dinsert]
  | cons p rest ih =>
    rw [dcontains_eq_false_iff] at h
    by_cases hk : p.1 = k
    · simp [dfind, hk] at h
    · simp only [dfind, hk, if_neg, not_false_iff] at h
      rw [← dcontains_eq_false_iff] at h
      simp [dinsert, hk, ih h]

theorem dfind_dinsert_self (c : Dict) (k : String) (v : Value) :
    dfind (dinsert c k v) k = some v := by
  induction c with
  | nil => simp [dinsert, dfind]
  | cons p rest ih =>
    by_cases hk : p.1 = k
    · simp [dinsert, dfind, hk]
    · simp [dinsert, dfind, hk, ih]

theorem dfind_dinsert_ne (c : Dict) {k k2 : String} (v : Value)
    (h : k ≠ k2) : dfind (dinsert c k v) k2 = dfind c k2 := by
  induction c with
  | nil => simp [dinsert, dfind, h]
  | cons p rest ih =>
    by_cases hk : p.1 = k
    · simp [dinsert, dfind, hk, h]
    · simp only [dinsert, hk, if_neg, not_false_iff]
      by_cases hk2 : p.1 = k2
      · simp [dfind, hk2]
      · simp [dfind, hk2, ih]

theorem dcontains_dinsert (c : Dict) (k k2 : String) (v : Value) :
    dcontains (dinsert c k v) k2 = ((k == k2) || dcontains c k2) := by
  by_cases h : k = k2
  · subst h
    simp [dcontains, dfind_dinsert_self]
  · simp [dcontains, dfind_dinsert_ne c v h, h]

theorem mem_dkeys_iff {c : Dict} {k : String} :
    k ∈ dkeys c ↔ dcontains c k = true := by
  induction c with
  | nil => simp [dkeys, dcontains, dfind]
  | cons p rest ih =>
    by_cases hk : p.1 = k
    · simp [dkeys, dcontains, dfind, hk]
    · simp [dkeys, dcontains, dfind, hk, Ne.symm hk] at ih ⊢
      exact ih

theorem dcontains_cons (p : String × Value) (rest : Dict) (k : String) :
    dcontains (p :: rest) k = ((p.1 == k) || dcontains rest k) := by
  by_cases h : p.1 = k <;> simp [dcontains, dfind, h]

theorem dcontains_mergeDicts (fixed mutable : Dict) (k : String) :
    dcontains (mergeDicts fixed mutable) k =
      (dcontains fixed k || dcontains mutable k) := by
  unfold mergeDicts
  induction mutable generalizing fixed with
  | nil => simp [dcontains, dfind]
  | cons p rest ih =>
    rw [List.foldl_cons, ih, dcontains_dinsert, dcontains_cons]
    cases dcontains fixed k <;> cases dcontains rest k <;>
      cases hb : (p.1 == k) <;> simp

theorem hasOverlap_eq_true_iff {fixed mutable : Dict} :
    hasOverlap fixed mutable = true ↔
      ∃ k, dcontains fixed k = true ∧ dcontains mutable k = true := by
  unfold hasOverlap
  rw [List.any_eq_true]
  constructor
  · rintro ⟨k, hk, hm⟩
    exact ⟨k, mem_dkeys_iff.mp hk, hm⟩
  · rintro ⟨k, hf, hm⟩
    exact ⟨k, mem_dkeys_iff.mpr hf, hm⟩

/-! ## Key-string disjointness -/

theorem args_key_ne_kwargs_key (a b : String) :
    a ++ "_args" ≠ b ++ "_kwargs" := by
  intro h
  have hd : a.data ++ "_args".data = b.data ++ "_kwargs".data := by
    rw [← String.data_append, ← String.data_append, h]
  have h1 : "_args".data <:+ b.data ++ "_kwargs".data := by
    rw [← hd]
    exact List.suffix_append a.data "_args".data
  have h2 : "_kwargs".data <:+ b.data ++ "_kwargs".data :=
    List.suffix_append b.data "_kwargs".data
  rcases List.suffix_or_suffix_of_suffix h1 h2 with h3 | h3
  · revert h3
    decide
  · revert h3
    decide

/-! ## Normalization lemmas -/

theorem completeKey_of_guard (c : Dict) {j : String}
    (hg : (reservedKeys.contains j || endsWithStr j "_args" ||
      endsWithStr j "_kwargs") = true) : completeKey c j = c := by
  unfold completeKey
  rw [if_pos hg]

theorem completeKey_of_not_guard (c : Dict) {j : String}
    (hg : (reservedKeys.contains j || endsWithStr j "_args" ||
      endsWithStr j "_kwargs") = false) :
    completeKey c j =
      (if dcontains (if dcontains c (j ++ "_args") then c
          else dinsert c (j ++ "_args") (Value.vtuple [])) (j ++ "_kwargs")
        then (if dcontains c (j ++ "_args") then c
          else dinsert c (j ++ "_args") (Value.vtuple []))
        else dinsert (if dcontains c (j ++ "_args") then c
          else dinsert c (j ++ "_args") (Value.vtuple [])) (j ++ "_kwargs")
          (Value.vdict [])) := by
  unfold completeKey
  rw [if_neg (show ¬ _ = true by rw [hg]; exact Bool.false_ne_true)]

theorem completeKey_shape (c : Dict) (j : String) :
    ∃ kvs, completeKey c j = c ++ kvs ∧
      ∀ p ∈ kvs, (p.1 = j ++ "_args" ∧ p.2 = Value.vtuple []) ∨
        (p.1 = j ++ "_kwargs" ∧ p.2 = Value.vdict []) := by
  by_cases hg : (reservedKeys.contains j || endsWithStr j "_args" ||
      endsWithStr j "_kwargs") = true
  · exact ⟨[], by rw [completeKey_of_guard c hg]; simp, by simp⟩
  · rw [Bool.not_eq_true] at hg
    rw [completeKey_of_not_guard c hg]
    by_cases h1 : dcontains c (j ++ "_args") = true
    · by_cases h2 : dcontains c (j ++ "_kwargs") = true
      · exact ⟨[], by simp [h1, h2], by simp⟩
      · refine ⟨[(j ++ "_kwargs", Value.vdict [])], ?_, by simp⟩
        rw [Bool.not_eq_true] at h2
        simp only [h1, if_true]
        simp [h2, dinsert_of_not_contains _ h2]
    · rw [Bool.not_eq_true] at h1
      simp only [h1, Bool.false_eq_true, if_false,
        dinsert_of_not_contains _ h1]
      by_cases h2 : dcontains (c ++ [(j ++ "_args", Value.vtuple [])])
          (j ++ "_kwargs") = true
      · exact ⟨[(j ++ "_args", Value.vtuple [])], by simp [h2], by simp⟩
      · refine ⟨[(j ++ "_args", Value.vtuple []),
          (j ++ "_kwargs", Value.vdict [])], ?_, by simp⟩
        rw [Bool.not_eq_true] at h2
        simp [h2, dinsert_of_not_contains _ h2]

theorem dfind_completeKey_of_some {c : Dict} {k2 : String} {v : Value}
    (j : String) (h : dfind c k2 = some v) :
    dfind (completeKey c j) k2 = some v := by
  obtain ⟨kvs, heq, -⟩ := completeKey_shape c j
  rw [heq]
  exact dfind_append_left kvs h

theorem dfind_foldl_completeKey_of_some {k2 : String} {v : Value}
    (ks : List String) (c : Dict) (h : dfind c k2 = some v) :
    dfind (ks.foldl completeKey c) k2 = some v := by
  induction ks generalizing c with
  | nil => exact h
  | cons j rest ih => exact ih _ (dfind_completeKey_of_some j h)

theorem dfind_completeKey_inv {c : Dict} {k2 : String} {v : Value}
    (j : String) (h : dfind (completeKey c j) k2 = some v) :
    dfind c k2 = some v ∨
      (∃ a, k2 = a ++ "_args" ∧ v = Value.vtuple []) ∨
      (∃ a, k2 = a ++ "_kwargs" ∧ v = Value.vdict []) := by
  obtain ⟨kvs, heq, hshape⟩ := completeKey_shape c j
  rw [heq, dfind_append] at h
  cases hc : dfind c k2 with
  | some w =>
    rw [hc] at h
    simp only [Option.some_inj] at h
    exact Or.inl (by rw [h])
  | none =>
    rw [hc] at h
    have hmem := dfind_mem h
    rcases hshape _ hmem with ⟨hk, hv⟩ | ⟨hk, hv⟩
    · exact Or.inr (Or.inl ⟨j, by simp_all⟩)
    · exact Or.inr (Or.inr ⟨j, by simp_all⟩)

theorem dfind_foldl_completeKey_inv {k2 : String} {v : Value}
    (ks : List String) (c : Dict)
    (h : dfind (ks.foldl completeKey c) k2 = some v) :
    dfind c k2 = some v ∨
      (∃ a, k2 = a ++ "_args" ∧ v = Value.vtuple []) ∨
      (∃ a, k2 = a ++ "_kwargs" ∧ v = Value.vdict []) := by
  induction ks generalizing c with
  | nil => exact Or.inl h
  | cons j rest ih =>
    rcases ih _ h with h2 | h2
    · exact dfind_completeKey_inv j h2
    · exact Or.inr h2

theorem dcontains_append_self (c : Dict) (k2 : String) (v : Value) :
    dcontains (c ++ [(k2, v)]) k2 = true := by
  rw [dcontains_eq_true_iff]
  cases hc : dfind c k2 with
  | some w => exact ⟨w, dfind_append_left _ hc⟩
  | none =>
    refine ⟨v, ?_⟩
    rw [dfind_append, hc]
    simp [dfind]

theorem dcontains_completeKey_mono {c : Dict} {k2 : String} (j : String)
    (h : dcontains c k2 = true) : dcontains (completeKey c j) k2 = true := by
  rw [dcontains_eq_true_iff] at h ⊢
  obtain ⟨v, hv⟩ := h
  exact ⟨v, dfind_completeKey_of_some j hv⟩

theorem dcontains_foldl_completeKey_mono {k2 : String} (ks : List String)
    (c : Dict) (h : dcontains c k2 = true) :
    dcontains (ks.foldl completeKey c) k2 = true := by
  rw [dcontains_eq_true_iff] at h ⊢
  obtain ⟨v, hv⟩ := h
  exact ⟨v, dfind_foldl_completeKey_of_some ks c hv⟩

theorem completeKey_self_contains {c : Dict} {k : String}
    (hg : (reservedKeys.contains k || endsWithStr k "_args" ||
      endsWithStr k "_kwargs") = false) :
    dcontains (completeKey c k) (k ++ "_args") = true ∧
      dcontains (completeKey c k) (k ++ "_kwargs") = true := by
  rw [completeKey_of_not_guard c hg]
  by_cases h1 : dcontains c (k ++ "_args") = true
  · rw [if_pos h1]
    by_cases h2 : dcontains c (k ++ "_kwargs") = true
    · rw [if_pos h2]
      exact ⟨h1, h2⟩
    · rw [if_neg h2, dinsert_of_not_contains _ (Bool.not_eq_true _ ▸ h2)]
      exact ⟨dcontains_append_left _ h1, dcontains_append_self _ _ _⟩
  · rw [if_neg h1, dinsert_of_not_contains _ (Bool.not_eq_true _ ▸ h1)]
    by_cases h2 : dcontains (c ++ [(k ++ "_args", Value.vtuple [])])
        (k ++ "_kwargs") = true
    · rw [if_pos h2]
      exact ⟨dcontains_append_self _ _ _, h2⟩
    · rw [if_neg h2, dinsert_of_not_contains _ (Bool.not_eq_true _ ▸ h2)]
      refine ⟨?_, dcontains_append_self _ _ _⟩
      exact dcontains_append_left _ (dcontains_append_self _ _ _)

theorem dcontains_foldl_completeKey_self {k : String} (ks : List String)
    (c : Dict) (hk : k ∈ ks)
    (hg : (reservedKeys.contains k || endsWithStr k "_args" ||
      endsWithStr k "_kwargs") = false) :
    dcontains (ks.foldl completeKey c) (k ++ "_args") = true ∧
      dcontains (ks.foldl completeKey c) (k ++ "_kwargs") = true := by
  induction ks generalizing c with
  | nil => simp at hk
  | cons j rest ih =>
    rcases List.mem_cons.mp hk with rfl | hmem
    · have h2 : dcontains (completeKey c k) (k ++ "_args") = true ∧
          dcontains (completeKey c k) (k ++ "_kwargs") = true :=
        completeKey_self_contains hg
      exact ⟨dcontains_foldl_completeKey_mono rest _ h2.1,
        dcontains_foldl_completeKey_mono rest _ h2.2⟩
    · exact ih _ hmem

theorem dfind_foldl_completeKey_default_args {k : String} (ks : List String)
    (c : Dict) (h0 : dfind c (k ++ "_args") = none) :
    dfind (ks.foldl completeKey c) (k ++ "_args") = none ∨
      dfind (ks.foldl completeKey c) (k ++ "_args") =
        some (Value.vtuple []) := by
  cases hf : dfind (ks.foldl completeKey c) (k ++ "_args") with
  | none => exact Or.inl rfl
  | some v =>
    rcases dfind_foldl_completeKey_inv ks c hf with h | ⟨a, _, hv⟩ |
        ⟨a, hk2, _⟩
    · rw [h0] at h
      cases h
    · exact Or.inr (by rw [hv])
    · exact absurd hk2 (args_key_ne_kwargs_key k a)

theorem dfind_foldl_completeKey_default_kwargs {k : String} (ks : List String)
    (c : Dict) (h0 : dfind c (k ++ "_kwargs") = none) :
    dfind (ks.foldl completeKey c) (k ++ "_kwargs") = none ∨
      dfind (ks.foldl completeKey c) (k ++ "_kwargs") =
        some (Value.vdict []) := by
  cases hf : dfind (ks.foldl completeKey c) (k ++ "_kwargs") with
  | none => exact Or.inl rfl
  | some v =>
    rcases dfind_foldl_completeKey_inv ks c hf with h | ⟨a, hk2, _⟩ |
        ⟨a, _, hv⟩
    · rw [h0] at h
      cases h
    · exact absurd hk2.symm (args_key_ne_kwargs_key a k)
    · exact Or.inr (by rw [hv])

/-! ## Per-stage evaluation equations -/

theorem addTrace_addTrace (s : St) (es1 es2 : List Event) :
    addTrace (addTrace s es1) es2 = addTrace s (es1 ++ es2) := by
  simp [addTrace]

theorem stageMerge_run_overlap {fixed mutable : Dict}
    (h : hasOverlap fixed mutable = true) (s : St) :
    (stageMerge fixed mutable).run s =
      EStateM.Result.error
        (Err.runtimeError "Fixed and mutable components cannot overlap") s := by
  simp [stageMerge, run_bind, run_throw, run_pure, h]

theorem stageMerge_run_ok {fixed mutable : Dict}
    (h : hasOverlap fixed mutable = false) (s : St) :
    (stageMerge fixed mutable).run s =
      EStateM.Result.ok (addMissingArgs (mergeDicts fixed mutable)) s := by
  simp [stageMerge, run_bind, run_throw, run_pure, h]

theorem stageDatasetMeta_run_missing {comps : Dict} {env : Env}
    (h : dcontains comps "dataset" = false) (s : St) :
    (stageDatasetMeta env comps).run s =
      EStateM.Result.error
        (Err.syntaxError "Dataset must be specified in training recipe") s := by
  simp [stageDatasetMeta, run_bind, run_throw, run_pure, h]

theorem stageDatasetMeta_run_empty {comps : Dict} {env : Env} {ds : Value}
    (hds : dfind comps "dataset" = some ds)
    (hsh : env.dataset_shape ds = []) (s : St) :
    (stageDatasetMeta env comps).run s =
      EStateM.Result.error Err.indexError
        (addTrace s [Event.datasetLoss ds, Event.datasetShape ds]) := by
  have hc : dcontains comps "dataset" = true := by simp [dcontains, hds]
  simp [stageDatasetMeta, run_bind, run_throw, run_pure, run_emit,
    run_liftE_ok, getKeyE, hds, hc, hsh, addTrace_addTrace]

theorem stageDatasetMeta_run_ok {comps : Dict} {env : Env} {ds ncls : Value}
    {sshape : List Value} (hds : dfind comps "dataset" = some ds)
    (hsh : env.dataset_shape ds = ncls :: sshape) (s : St) :
    (stageDatasetMeta env comps).run s =
      EStateM.Result.ok (ds, env.dataset_loss ds, sshape)
        (addTrace s [Event.datasetLoss ds, Event.datasetShape ds]) := by
  have hc : dcontains comps "dataset" = true := by simp [dcontains, hds]
  simp [stageDatasetMeta, run_bind, run_throw, run_pure, run_emit,
    run_liftE_ok, getKeyE, hds, hc, hsh, addTrace_addTrace]

theorem stageNetwork_run_missing_model {comps : Dict} {env : Env}
    {loss_op : Value} {sshape : List Value}
    (h : dcontains comps "model" = false) (s : St) :
    (stageNetwork env comps loss_op sshape).run s =
      EStateM.Result.error
        (Err.syntaxError "Model must be specified in recipe") s := by
  simp [stageNetwork, run_bind, run_throw, run_pure, h]

theorem stageNetwork_run_missing_batch {comps : Dict} {env : Env}
    {loss_op : Value} {sshape : List Value}
    (hm : dcontains comps "model" = true)
    (hb : dcontains comps "batch_size" = false) (s : St) :
    (stageNetwork env comps loss_op sshape).run s =
      EStateM.Result.error
        (Err.syntaxError "Batch size must be specified in training recipe")
        s := by
  simp [stageNetwork, run_bind, run_throw, run_pure, hm, hb]

theorem stageNetwork_run_ok {comps : Dict} {env : Env}
    {mdl batch net inode onode : Value} {margs : List Value} {mkw : Dict}
    {loss_op : Value} {sshape : List Value}
    (hb : dfind comps "batch_size" = some batch)
    (hm : dfind comps "model" = some mdl)
    (hma : dfind comps "model_args" = some (Value.vtuple margs))
    (hmk : dfind comps "model_kwargs" = some (Value.vdict mkw))
    (hcm : env.create_model mdl batch margs sshape mkw = (net, inode, onode))
    (s : St) :
    (stageNetwork env comps loss_op sshape).run s =
      EStateM.Result.ok
        (env.add_operation net (env.call loss_op
            [Value.vlist [onode, Value.vstr "label"], Value.vstr "loss"] []),
          batch, inode, onode)
        (addTrace s [Event.createModel mdl batch margs sshape mkw,
          Event.lossOpCall loss_op
            [Value.vlist [onode, Value.vstr "label"], Value.vstr "loss"],
          Event.addOperation net (env.call loss_op
            [Value.vlist [onode, Value.vstr "label"], Value.vstr "loss"] [])]) := by
  have hcb : dcontains comps "batch_size" = true := by simp [dcontains, hb]
  have hcmo : dcontains comps "model" = true := by simp [dcontains, hm]
  simp [stageNetwork, run_bind, run_throw, run_pure, run_emit, run_liftE_ok,
    getKeyE, getArgsE, getKwargsE, asTupleE, asDictE, hb, hm, hma, hmk, hcb,
    hcmo, hcm, addTrace_addTrace, run_bind2, Bind.bind, Except.bind]

theorem stageData_run_ok {comps : Dict} {env : Env}
    {ds inode tset vset : Value} {dargs : List Value} {dkw : Dict}
    (hda : dfind comps "dataset_args" = some (Value.vtuple dargs))
    (hdk : dfind comps "dataset_kwargs" = some (Value.vdict dkw))
    (hld : env.load_dataset ds inode (Value.vstr "label") dargs dkw =
      (tset, vset)) (s : St) :
    (stageData env comps ds inode).run s =
      EStateM.Result.ok (tset, vset)
        (addTrace s [Event.loadDataset ds inode (Value.vstr "label")
          dargs dkw]) := by
  simp [stageData, run_bind, run_throw, run_pure, run_emit, run_liftE_ok,
    getKeyE, getArgsE, getKwargsE, asTupleE, asDictE, hda, hdk, hld,
    addTrace_addTrace, run_bind2, Bind.bind, Except.bind]

theorem stageSamplers_run {comps : Dict} {env : Env}
    {batch tset vset tsam vsam : Value} {ttr vtr : List Event}
    (hts : SamplerRes env comps "train_sampler" tset batch tsam ttr)
    (hvs : SamplerRes env comps "validation_sampler" vset batch vsam vtr)
    (s : St) :
    (stageSamplers env comps batch tset vset).run s =
      EStateM.Result.ok (tsam, vsam) (addTrace s (ttr ++ vtr)) := by
  rcases hts with ⟨hc1, rfl, rfl⟩ | ⟨f, args, kw, hf, ha, hk, rfl, rfl⟩ <;>
    rcases hvs with ⟨hc2, rfl, rfl⟩ | ⟨g, args2, kw2, hg, ha2, hk2, rfl, rfl⟩
  · simp [stageSamplers, run_bind, run_throw, run_pure, run_emit,
      run_liftE_ok, hc1, hc2, addTrace_addTrace, addTrace]
  · have hcc2 : dcontains comps "validation_sampler" = true := by
      simp [dcontains, hg]
    have ha2a : dfind comps "validation_sampler_args" =
      some (Value.vtuple args2) := ha2
    have hk2a : dfind comps "validation_sampler_kwargs" =
      some (Value.vdict kw2) := hk2
    simp [stageSamplers, run_bind, run_throw, run_pure, run_emit,
      run_liftE_ok, getKeyE, getArgsE, getKwargsE, asTupleE, asDictE, hc1,
      hcc2, hg, ha2a, hk2a, addTrace_addTrace, run_bind2, Bind.bind,
      Except.bind]
  · have hcc1 : dcontains comps "train_sampler" = true := by
      simp [dcontains, hf]
    have haa : dfind comps "train_sampler_args" =
      some (Value.vtuple args) := ha
    have hka : dfind comps "train_sampler_kwargs" =
      some (Value.vdict kw) := hk
    simp [stageSamplers, run_bind, run_throw, run_pure, run_emit,
      run_liftE_ok, getKeyE, getArgsE, getKwargsE, asTupleE, asDictE, hcc1,
      hf, haa, hka, hc2, addTrace_addTrace, run_bind2, Bind.bind, Except.bind]
  · have hcc1 : dcontains comps "train_sampler" = true := by
      simp [dcontains, hf]
    have hcc2 : dcontains comps "validation_sampler" = true := by
      simp [dcontains, hg]
    have haa : dfind comps "train_sampler_args" =
      some (Value.vtuple args) := ha
    have hka : dfind comps "train_sampler_kwargs" =
      some (Value.vdict kw) := hk
    have ha2a : dfind comps "validation_sampler_args" =
      some (Value.vtuple args2) := ha2
    have hk2a : dfind comps "validation_sampler_kwargs" =
      some (Value.vdict kw2) := hk2
    simp [stageSamplers, run_bind, run_throw, run_pure, run_emit,
      run_liftE_ok, getKeyE, getArgsE, getKwargsE, asTupleE, asDictE, hcc1,
      hf, haa, hka, hcc2, hg, ha2a, hk2a, addTrace_addTrace, run_bind2,
      Bind.bind, Except.bind]

theorem stageExecutor_run_missing {comps : Dict} {env : Env} {network : Value}
    (h : dcontains comps "executor" = false) (s : St) :
    (stageExecutor env comps network).run s =
      EStateM.Result.error
        (Err.syntaxError "Executor must be specified in recipe") s := by
  simp [stageExecutor, run_bind, run_throw, run_pure, h]

theorem stageExecutor_run_ok {comps : Dict} {env : Env}
    {network exf : Value} {eargs : List Value} {ekw : Dict}
    (hex : dfind comps "executor" = some exf)
    (hea : dfind comps "executor_args" = some (Value.vtuple eargs))
    (hek : dfind comps "executor_kwargs" = some (Value.vdict ekw)) (s : St) :
    (stageExecutor env comps network).run s =
      EStateM.Result.ok (env.call exf ([network] ++ eargs) ekw)
        (addTrace s [Event.executorCall exf network eargs ekw]) := by
  have hc : dcontains comps "executor" = true := by simp [dcontains, hex]
  simp [stageExecutor, run_bind, run_throw, run_pure, run_emit, run_liftE_ok,
    getKeyE, getArgsE, getKwargsE, asTupleE, asDictE, hc, hex, hea, hek,
    addTrace_addTrace, run_bind2, Bind.bind, Except.bind]

theorem stageOptimizer_run_missing {comps : Dict} {env : Env}
    {executor : Value} (h : dcontains comps "optimizer" = false) (s : St) :
    (stageOptimizer env comps executor).run s =
      EStateM.Result.error
        (Err.syntaxError "Optimizer must be specified in training recipe")
        s := by
  simp [stageOptimizer, run_bind, run_throw, run_pure, h]

theorem stageOptimizer_run_ok {comps : Dict} {env : Env}
    {executor opf : Value} {oargs : List Value} {okw : Dict}
    (hop : dfind comps "optimizer" = some opf)
    (hoa : dfind comps "optimizer_args" = some (Value.vtuple oargs))
    (hok : dfind comps "optimizer_kwargs" = some (Value.vdict okw)) (s : St) :
    (stageOptimizer env comps executor).run s =
      EStateM.Result.ok
        (env.call opf ([executor, Value.vstr "loss"] ++ oargs) okw)
        (addTrace s [Event.optimizerCall opf executor (Value.vstr "loss")
          oargs okw]) := by
  have hc : dcontains comps "optimizer" = true := by simp [dcontains, hop]
  simp [stageOptimizer, run_bind, run_throw, run_pure, run_emit, run_liftE_ok,
    getKeyE, getArgsE, getKwargsE, asTupleE, asDictE, hc, hop, hoa, hok,
    addTrace_addTrace, run_bind2, Bind.bind, Except.bind]

theorem stageTrain_run_missing_epochs {comps : Dict} {env : Env}
    {executor tsam vsam opt batch onode : Value}
    (h : dcontains comps "epochs" = false) (s : St) :
    (stageTrain env comps executor tsam vsam opt batch onode).run s =
      EStateM.Result.error
        (Err.syntaxError "Epochs must be specified in training recipe")
        { s with metrics := s.metrics ++ [(env.wallclockTime, none)] } := by
  simp [stageTrain, run_bind, run_throw, run_pure, run_modify, h]

theorem stageTrain_run_ok {comps : Dict} {env : Env}
    {ep ev executor tsam vsam opt batch onode : Value}
    (hep : dfind comps "epochs" = some ep) (hev : EventsRes comps ev)
    (s : St) :
    (stageTrain env comps executor tsam vsam opt batch onode).run s =
      EStateM.Result.ok
        (env.test_training executor tsam vsam opt ep batch onode
          ((s.metrics ++ [(env.wallclockTime, none)]).map Prod.fst) ev)
        { s with
          metrics := s.metrics ++ [(env.wallclockTime, none)],
          trace := s.trace ++ [Event.testTraining executor tsam vsam opt ep
            batch onode
            ((s.metrics ++ [(env.wallclockTime, none)]).map Prod.fst) ev],
          results := some (env.test_training executor tsam vsam opt ep batch
            onode ((s.metrics ++ [(env.wallclockTime, none)]).map Prod.fst)
            ev) } := by
  have hc : dcontains comps "epochs" = true := by simp [dcontains, hep]
  rcases hev with ⟨hce, hfe⟩ | ⟨hce, rfl⟩
  · simp [stageTrain, run_bind, run_throw, run_pure, run_modify, run_emit,
      run_get, run_liftE_ok, getKeyE, hc, hep, hce, hfe, addTrace]
  · simp [stageTrain, run_bind, run_throw, run_pure, run_modify, run_emit,
      run_get, run_liftE_ok, getKeyE, hc, hep, hce, dfind_dinsert_self,
      addTrace]

theorem stageVerify_run (rs : List Int) (s : St) :
    (stageVerify rs).run s =
      EStateM.Result.ok (verifyLoop (s.metrics.zip rs)).1
        { s with diags := s.diags ++ (verifyLoop (s.metrics.zip rs)).2 ++
            (if (verifyLoop (s.metrics.zip rs)).1 then [Diag.passed]
              else []) } := by
  cases hr : (verifyLoop (s.metrics.zip rs)).1 <;>
    simp [stageVerify, run_bind, run_pure, run_modify, run_get, hr]

/-! ## The successful run, end to end -/

theorem run_recipe_success
    (env : Env) (fixed mutable : Dict) (metrics : List (Value × Option Int))
    {comps : Dict}
    {ds ncls mdl batch net inode onode tset vset tsam vsam exf opf opnode
      net2 execv optv ep ev : Value}
    {sshape margs dargs eargs oargs : List Value}
    {mkw dkw ekw okw : Dict} {ttr vtr : List Event} {rs : List Int}
    (hov : hasOverlap fixed mutable = false)
    (hcomps : addMissingArgs (mergeDicts fixed mutable) = comps)
    (hds : dfind comps "dataset" = some ds)
    (hsh : env.dataset_shape ds = ncls :: sshape)
    (hm : dfind comps "model" = some mdl)
    (hb : dfind comps "batch_size" = some batch)
    (hma : dfind comps "model_args" = some (Value.vtuple margs))
    (hmk : dfind comps "model_kwargs" = some (Value.vdict mkw))
    (hcm : env.create_model mdl batch margs sshape mkw = (net, inode, onode))
    (hopn : env.call (env.dataset_loss ds)
      [Value.vlist [onode, Value.vstr "label"], Value.vstr "loss"] [] = opnode)
    (hnet2 : env.add_operation net opnode = net2)
    (hda : dfind comps "dataset_args" = some (Value.vtuple dargs))
    (hdk : dfind comps "dataset_kwargs" = some (Value.vdict dkw))
    (hld : env.load_dataset ds inode (Value.vstr "label") dargs dkw =
      (tset, vset))
    (hts : SamplerRes env comps "train_sampler" tset batch tsam ttr)
    (hvs : SamplerRes env comps "validation_sampler" vset batch vsam vtr)
    (hex : dfind comps "executor" = some exf)
    (hea : dfind comps "executor_args" = some (Value.vtuple eargs))
    (hek : dfind comps "executor_kwargs" = some (Value.vdict ekw))
    (hexec : env.call exf ([net2] ++ eargs) ekw = execv)
    (hop : dfind comps "optimizer" = some opf)
    (hoa : dfind comps "optimizer_args" = some (Value.vtuple oargs))
    (hok : dfind comps "optimizer_kwargs" = some (Value.vdict okw))
    (hoptv : env.call opf ([execv, Value.vstr "loss"] ++ oargs) okw = optv)
    (hep : dfind comps "epochs" = some ep)
    (hev : EventsRes comps ev)
    (hrs : env.test_training execv tsam vsam optv ep batch onode
      (metrics.map Prod.fst ++ [env.wallclockTime]) ev = rs) :
    run_recipe env fixed mutable metrics =
      { result := Except.ok
          (verifyLoop ((metrics ++ [(env.wallclockTime, none)]).zip rs)).1,
        fixedFinal := fixed, mutableFinal := mutable,
        metricsFinal := metrics ++ [(env.wallclockTime, none)],
        trace := [Event.datasetLoss ds, Event.datasetShape ds,
          Event.createModel mdl batch margs sshape mkw,
          Event.lossOpCall (env.dataset_loss ds)
            [Value.vlist [onode, Value.vstr "label"], Value.vstr "loss"],
          Event.addOperation net opnode,
          Event.loadDataset ds inode (Value.vstr "label") dargs dkw] ++
          ttr ++ vtr ++
          [Event.executorCall exf net2 eargs ekw,
           Event.optimizerCall opf execv (Value.vstr "loss") oargs okw,
           Event.testTraining execv tsam vsam optv ep batch onode
             (metrics.map Prod.fst ++ [env.wallclockTime]) ev],
        diags := (verifyLoop
            ((metrics ++ [(env.wallclockTime, none)]).zip rs)).2 ++
          (if (verifyLoop ((metrics ++ [(env.wallclockTime, none)]).zip rs)).1
            then [Diag.passed] else []),
        results := some rs } := by
  subst hcomps hopn hnet2 hexec hoptv hrs
  unfold run_recipe
  simp only [runRecipeM, run_bind, run_get, stageMerge_run_ok hov,
    stageDatasetMeta_run_ok hds hsh, stageNetwork_run_ok hb hm hma hmk hcm,
    stageData_run_ok hda hdk hld, stageSamplers_run hts hvs,
    stageExecutor_run_ok hex hea hek, stageOptimizer_run_ok hop hoa hok,
    stageTrain_run_ok hep hev, stageVerify_run, addTrace]
  simp

/-! ## The epochs-missing run, end to end -/

theorem run_recipe_missing_epochs
    (env : Env) (fixed mutable : Dict) (metrics : List (Value × Option Int))
    {comps : Dict}
    {ds ncls mdl batch net inode onode tset vset tsam vsam exf opf opnode
      net2 execv optv : Value}
    {sshape margs dargs eargs oargs : List Value}
    {mkw dkw ekw okw : Dict} {ttr vtr : List Event}
    (hov : hasOverlap fixed mutable = false)
    (hcomps : addMissingArgs (mergeDicts fixed mutable) = comps)
    (hds : dfind comps "dataset" = some ds)
    (hsh : env.dataset_shape ds = ncls :: sshape)
    (hm : dfind comps "model" = some mdl)
    (hb : dfind comps "batch_size" = some batch)
    (hma : dfind comps "model_args" = some (Value.vtuple margs))
    (hmk : dfind comps "model_kwargs" = some (Value.vdict mkw))
    (hcm : env.create_model mdl batch margs sshape mkw = (net, inode, onode))
    (hopn : env.call (env.dataset_loss ds)
      [Value.vlist [onode, Value.vstr "label"], Value.vstr "loss"] [] = opnode)
    (hnet2 : env.add_operation net opnode = net2)
    (hda : dfind comps "dataset_args" = some (Value.vtuple dargs))
    (hdk : dfind comps "dataset_kwargs" = some (Value.vdict dkw))
    (hld : env.load_dataset ds inode (Value.vstr "label") dargs dkw =
      (tset, vset))
    (hts : SamplerRes env comps "train_sampler" tset batch tsam ttr)
    (hvs : SamplerRes env comps "validation_sampler" vset batch vsam vtr)
    (hex : dfind comps "executor" = some exf)
    (hea : dfind comps "executor_args" = some (Value.vtuple eargs))
    (hek : dfind comps "executor_kwargs" = some (Value.vdict ekw))
    (hexec : env.call exf ([net2] ++ eargs) ekw = execv)
    (hop : dfind comps "optimizer" = some opf)
    (hoa : dfind comps "optimizer_args" = some (Value.vtuple oargs))
    (hok : dfind comps "optimizer_kwargs" = some (Value.vdict okw))
    (hoptv : env.call opf ([execv, Value.vstr "loss"] ++ oargs) okw = optv)
    (hepn : dcontains comps "epochs" = false) :
    run_recipe env fixed mutable metrics =
      { result := Except.error
          (Err.syntaxError "Epochs must be specified in training recipe"),
        fixedFinal := fixed, mutableFinal := mutable,
        metricsFinal := metrics ++ [(env.wallclockTime, none)],
        trace := [Event.datasetLoss ds, Event.datasetShape ds,
          Event.createModel mdl batch margs sshape mkw,
          Event.lossOpCall (env.dataset_loss ds)
            [Value.vlist [onode, Value.vstr "label"], Value.vstr "loss"],
          Event.addOperation net opnode,
          Event.loadDataset ds inode (Value.vstr "label") dargs dkw] ++
          ttr ++ vtr ++
          [Event.executorCall exf net2 eargs ekw,
           Event.optimizerCall opf execv (Value.vstr "loss") oargs okw],
        diags := [], results := none } := by
  subst hcomps hopn hnet2 hexec hoptv
  unfold run_recipe
  simp only [runRecipeM, run_bind, run_get, stageMerge_run_ok hov,
    stageDatasetMeta_run_ok hds hsh, stageNetwork_run_ok hb hm hma hmk hcm,
    stageData_run_ok hda hdk hld, stageSamplers_run hts hvs,
    stageExecutor_run_ok hex hea hek, stageOptimizer_run_ok hop hoa hok,
    stageTrain_run_missing_epochs hepn, addTrace]
  simp

/-! ## Frame lemmas -/

theorem keeps3_bind {α β : Type} {x : RecipeM α} {f : α → RecipeM β}
    (hx : Keeps3 x) (hf : ∀ a, Keeps3 (f a)) : Keeps3 (x >>= f) := by
  intro s
  rw [run_bind]
  cases hxs : x.run s with
  | ok a s2 =>
    have h1 := hx s
    rw [hxs] at h1
    have h2 := hf a s2
    simp only [resState] at h1 h2 ⊢
    exact ⟨h2.1.trans h1.1, h2.2.1.trans h1.2.1, h2.2.2.trans h1.2.2⟩
  | error e s2 =>
    have h1 := hx s
    rw [hxs] at h1
    simpa [resState] using h1

theorem keeps3_pure {α : Type} (a : α) : Keeps3 (pure a : RecipeM α) := by
  intro s
  simp [run_pure, resState]

theorem keeps3_throw {α : Type} (e : Err) : Keeps3 (throw e : RecipeM α) := by
  intro s
  simp [run_throw, resState]

theorem keeps3_liftE {α : Type} (x : Except Err α) : Keeps3 (liftE x) := by
  cases x with
  | ok a => exact keeps3_pure a
  | error e => exact keeps3_throw e

theorem keeps3_emit (e : Event) : Keeps3 (emit e) := by
  intro s
  simp [run_emit, resState, addTrace]

theorem keeps3_get : Keeps3 (get : RecipeM St) := by
  intro s
  simp [run_get, resState]

theorem keeps3_modify (f : St → St)
    (h : ∀ s, (f s).fixed = s.fixed ∧ (f s).mutable = s.mutable ∧
      (f s).metrics = s.metrics) : Keeps3 (modify f) := by
  intro s
  simpa [run_modify, resState] using h s

theorem keeps3_iteB {α : Type} (c : Bool) {x y : RecipeM α}
    (hx : Keeps3 x) (hy : Keeps3 y) : Keeps3 (if c then x else y) := by
  cases c
  · simpa using hy
  · simpa using hx

theorem keeps3_check {β : Type} (c : Bool) (e : Err) {rest : PUnit → RecipeM β}
    (hrest : ∀ y, Keeps3 (rest y)) :
    Keeps3 (if c = true then throw e >>= rest
      else pure PUnit.unit >>= rest) := by
  cases c
  · simpa using keeps3_bind (keeps3_pure PUnit.unit) hrest
  · simpa using keeps3_bind (keeps3_throw e) hrest

theorem keepsFM_of_keeps3 {α : Type} {m : RecipeM α} (h : Keeps3 m) :
    KeepsFM m :=
  fun s => ⟨(h s).1, (h s).2.1⟩

theorem keepsFM_bind {α β : Type} {x : RecipeM α} {f : α → RecipeM β}
    (hx : KeepsFM x) (hf : ∀ a, KeepsFM (f a)) : KeepsFM (x >>= f) := by
  intro s
  rw [run_bind]
  cases hxs : x.run s with
  | ok a s2 =>
    have h1 := hx s
    rw [hxs] at h1
    have h2 := hf a s2
    simp only [resState] at h1 h2 ⊢
    exact ⟨h2.1.trans h1.1, h2.2.trans h1.2⟩
  | error e s2 =>
    have h1 := hx s
    rw [hxs] at h1
    simpa [resState] using h1

theorem keeps3_stageMerge (fixed mutable : Dict) :
    Keeps3 (stageMerge fixed mutable) := by
  unfold stageMerge
  exact keeps3_check (hasOverlap fixed mutable) _ fun _ => keeps3_pure _

theorem keeps3_stageDatasetMeta (env : Env) (comps : Dict) :
    Keeps3 (stageDatasetMeta env comps) := by
  unfold stageDatasetMeta
  refine keeps3_check (!dcontains comps "dataset") _ fun _ => ?_
  refine keeps3_bind (keeps3_liftE _) fun dataset => ?_
  refine keeps3_bind (keeps3_emit _) fun _ => ?_
  refine keeps3_bind (keeps3_emit _) fun _ => ?_
  cases env.dataset_shape dataset with
  | nil => exact keeps3_throw _
  | cons a l => exact keeps3_pure _

theorem keeps3_stageNetwork (env : Env) (comps : Dict) (loss_op : Value)
    (sshape : List Value) : Keeps3 (stageNetwork env comps loss_op sshape) := by
  unfold stageNetwork
  refine keeps3_check (!dcontains comps "model") _ fun _ => ?_
  refine keeps3_check (!dcontains comps "batch_size") _ fun _ => ?_
  refine keeps3_bind (keeps3_liftE _) fun batch => ?_
  refine keeps3_bind (keeps3_liftE _) fun model => ?_
  refine keeps3_bind (keeps3_liftE _) fun margs => ?_
  refine keeps3_bind (keeps3_liftE _) fun mkwargs => ?_
  refine keeps3_bind (keeps3_emit _) fun _ => ?_
  refine keeps3_bind (keeps3_emit _) fun _ => ?_
  refine keeps3_bind (keeps3_emit _) fun _ => ?_
  exact keeps3_pure _

theorem keeps3_stageData (env : Env) (comps : Dict) (dataset inode : Value) :
    Keeps3 (stageData env comps dataset inode) := by
  unfold stageData
  refine keeps3_bind (keeps3_liftE _) fun dargs => ?_
  refine keeps3_bind (keeps3_liftE _) fun dkwargs => ?_
  refine keeps3_bind (keeps3_emit _) fun _ => ?_
  exact keeps3_pure _

theorem keeps3_stageSamplers (env : Env) (comps : Dict)
    (batch tset vset : Value) :
    Keeps3 (stageSamplers env comps batch tset vset) := by
  unfold stageSamplers
  refine keeps3_iteB (dcontains comps "train_sampler") ?_ ?_
  · refine keeps3_bind (keeps3_liftE _) fun f => ?_
    refine keeps3_bind (keeps3_liftE _) fun args => ?_
    refine keeps3_bind (keeps3_liftE _) fun kwargs => ?_
    refine keeps3_bind (keeps3_emit _) fun _ => ?_
    refine keeps3_bind (keeps3_pure _) fun t => ?_
    refine keeps3_iteB (dcontains comps "validation_sampler") ?_ ?_
    · refine keeps3_bind (keeps3_liftE _) fun g => ?_
      refine keeps3_bind (keeps3_liftE _) fun args2 => ?_
      refine keeps3_bind (keeps3_liftE _) fun kwargs2 => ?_
      refine keeps3_bind (keeps3_emit _) fun _ => ?_
      exact keeps3_bind (keeps3_pure _) fun v => keeps3_pure _
    · exact keeps3_bind (keeps3_pure _) fun v => keeps3_pure _
  · refine keeps3_bind (keeps3_pure _) fun t => ?_
    refine keeps3_iteB (dcontains comps "validation_sampler") ?_ ?_
    · refine keeps3_bind (keeps3_liftE _) fun g => ?_
      refine keeps3_bind (keeps3_liftE _) fun args2 => ?_
      refine keeps3_bind (keeps3_liftE _) fun kwargs2 => ?_
      refine keeps3_bind (keeps3_emit _) fun _ => ?_
      exact keeps3_bind (keeps3_pure _) fun v => keeps3_pure _
    · exact keeps3_bind (keeps3_pure _) fun v => keeps3_pure _

theorem keeps3_stageExecutor (env : Env) (comps : Dict) (network : Value) :
    Keeps3 (stageExecutor env comps network) := by
  unfold stageExecutor
  refine keeps3_check (!dcontains comps "executor") _ fun _ => ?_
  refine keeps3_bind (keeps3_liftE _) fun f => ?_
  refine keeps3_bind (keeps3_liftE _) fun args => ?_
  refine keeps3_bind (keeps3_liftE _) fun kwargs => ?_
  exact keeps3_bind (keeps3_emit _) fun _ => keeps3_pure _

theorem keeps3_stageOptimizer (env : Env) (comps : Dict) (executor : Value) :
    Keeps3 (stageOptimizer env comps executor) := by
  unfold stageOptimizer
  refine keeps3_check (!dcontains comps "optimizer") _ fun _ => ?_
  refine keeps3_bind (keeps3_liftE _) fun f => ?_
  refine keeps3_bind (keeps3_liftE _) fun args => ?_
  refine keeps3_bind (keeps3_liftE _) fun kwargs => ?_
  exact keeps3_bind (keeps3_emit _) fun _ => keeps3_pure _

theorem keeps3_stageVerify (rs : List Int) : Keeps3 (stageVerify rs) := by
  unfold stageVerify
  refine keeps3_bind keeps3_get fun s => ?_
  refine keeps3_bind (keeps3_modify _ (by intro s2; simp)) fun _ => ?_
  refine keeps3_iteB (verifyLoop (s.metrics.zip rs)).1 ?_ (keeps3_pure _)
  exact keeps3_bind (keeps3_modify _ (by intro s2; simp)) fun _ =>
    keeps3_pure _

theorem stageTrain_frame (env : Env) (comps : Dict)
    (executor tsam vsam opt batch onode : Value) (s : St) :
    (resState ((stageTrain env comps executor tsam vsam opt batch
        onode).run s)).fixed = s.fixed ∧
      (resState ((stageTrain env comps executor tsam vsam opt batch
        onode).run s)).mutable = s.mutable ∧
      (resState ((stageTrain env comps executor tsam vsam opt batch
        onode).run s)).metrics = s.metrics ++ [(env.wallclockTime, none)] := by
  by_cases hep : dcontains comps "epochs" = true
  · obtain ⟨ep, hfind⟩ := dcontains_eq_true_iff.mp hep
    by_cases hev : dcontains comps "events" = true
    · obtain ⟨evv, hfe⟩ := dcontains_eq_true_iff.mp hev
      rw [stageTrain_run_ok hfind (Or.inl ⟨hev, hfe⟩)]
      simp [resState]
    · rw [stageTrain_run_ok hfind (Or.inr ⟨Bool.not_eq_true _ ▸ hev, rfl⟩)]
      simp [resState]
  · rw [stageTrain_run_missing_epochs (Bool.not_eq_true _ ▸ hep)]
    simp [resState]

theorem keepsFM_runRecipeM (env : Env) : KeepsFM (runRecipeM env) := by
  unfold runRecipeM
  refine keepsFM_bind (keepsFM_of_keeps3 keeps3_get) fun s0 => ?_
  refine keepsFM_bind (keepsFM_of_keeps3 (keeps3_stageMerge _ _))
    fun comps => ?_
  refine keepsFM_bind (keepsFM_of_keeps3 (keeps3_stageDatasetMeta _ _))
    fun meta => ?_
  refine keepsFM_bind (keepsFM_of_keeps3 (keeps3_stageNetwork _ _ _ _))
    fun net => ?_
  refine keepsFM_bind (keepsFM_of_keeps3 (keeps3_stageData _ _ _ _))
    fun sets => ?_
  refine keepsFM_bind (keepsFM_of_keeps3 (keeps3_stageSamplers _ _ _ _ _))
    fun samplers => ?_
  refine keepsFM_bind (keepsFM_of_keeps3 (keeps3_stageExecutor _ _ _))
    fun executor => ?_
  refine keepsFM_bind (keepsFM_of_keeps3 (keeps3_stageOptimizer _ _ _))
    fun optimizer => ?_
  refine keepsFM_bind ?_ fun results =>
    keepsFM_of_keeps3 (keeps3_stageVerify _)
  intro s
  have h := stageTrain_frame env comps executor samplers.1 samplers.2
    optimizer net.2.1 net.2.2.2 s
  exact ⟨h.1, h.2.1⟩

theorem run_bind_ok_inv {α β : Type} {x : RecipeM α} {f : α → RecipeM β}
    {s : St} {b : β} {s2 : St}
    (h : (x >>= f).run s = EStateM.Result.ok b s2) :
    ∃ a s1, x.run s = EStateM.Result.ok a s1 ∧
      (f a).run s1 = EStateM.Result.ok b s2 := by
  rw [run_bind] at h
  cases hx : x.run s with
  | ok a s1 =>
    rw [hx] at h
    exact ⟨a, s1, rfl, h⟩
  | error e s1 =>
    rw [hx] at h
    simp at h

theorem keeps3_ok_state {α : Type} {m : RecipeM α} (hk : Keeps3 m) {s : St}
    {a : α} {s2 : St} (h : m.run s = EStateM.Result.ok a s2) :
    s2.fixed = s.fixed ∧ s2.mutable = s.mutable ∧ s2.metrics = s.metrics := by
  have h2 := hk s
  rw [h] at h2
  simpa [resState] using h2

theorem stageTrain_ok_state {env : Env} {comps : Dict}
    {executor tsam vsam opt batch onode : Value} {s : St} {r : List Int}
    {s2 : St} (h : (stageTrain env comps executor tsam vsam opt batch
      onode).run s = EStateM.Result.ok r s2) :
    s2.fixed = s.fixed ∧ s2.mutable = s.mutable ∧
      s2.metrics = s.metrics ++ [(env.wallclockTime, none)] := by
  have h2 := stageTrain_frame env comps executor tsam vsam opt batch onode s
  rw [h] at h2
  simpa [resState] using h2

theorem runRecipeM_ok_metrics {env : Env} {st : St} {b : Bool} {s2 : St}
    (h : (runRecipeM env).run st = EStateM.Result.ok b s2) :
    s2.metrics = st.metrics ++ [(env.wallclockTime, none)] := by
  unfold runRecipeM at h
  obtain ⟨s0, sG, hg, h⟩ := run_bind_ok_inv h
  rw [run_get] at hg
  injection hg with hg1 hg2
  subst hg1
  subst hg2
  obtain ⟨comps, sA, hA, h⟩ := run_bind_ok_inv h
  obtain ⟨meta, sB, hB, h⟩ := run_bind_ok_inv h
  obtain ⟨net, sC, hC, h⟩ := run_bind_ok_inv h
  obtain ⟨sets, sD, hD, h⟩ := run_bind_ok_inv h
  obtain ⟨samplers, sE, hE, h⟩ := run_bind_ok_inv h
  obtain ⟨executor, sF2, hF, h⟩ := run_bind_ok_inv h
  obtain ⟨optimizer, sG2, hG, h⟩ := run_bind_ok_inv h
  obtain ⟨results, sH, hH, h⟩ := run_bind_ok_inv h
  have mA := (keeps3_ok_state (keeps3_stageMerge _ _) hA).2.2
  have mB := (keeps3_ok_state (keeps3_stageDatasetMeta _ _) hB).2.2
  have mC := (keeps3_ok_state (keeps3_stageNetwork _ _ _ _) hC).2.2
  have mD := (keeps3_ok_state (keeps3_stageData _ _ _ _) hD).2.2
  have mE := (keeps3_ok_state (keeps3_stageSamplers _ _ _ _ _) hE).2.2
  have mF := (keeps3_ok_state (keeps3_stageExecutor _ _ _) hF).2.2
  have mG := (keeps3_ok_state (keeps3_stageOptimizer _ _ _) hG).2.2
  have mH := (stageTrain_ok_state hH).2.2
  have mI := (keeps3_ok_state (keeps3_stageVerify _) h).2.2
  rw [mI, mH, mG, mF, mE, mD, mC, mB, mA]

/-! ## Verification-loop characterization -/

theorem verifyStep_foldl (acc : Bool × List Diag)
    (pairs : List ((Value × Option Int) × Int)) :
    pairs.foldl verifyStep acc =
      ((acc.1 && (pairs.filterMap failOf).isEmpty),
        acc.2 ++ pairs.filterMap failOf) := by
  induction pairs generalizing acc with
  | nil => simp
  | cons p rest ih =>
    rw [List.foldl_cons, ih]
    rcases p with ⟨⟨m, a⟩, r⟩
    cases a with
    | none => simp [verifyStep, failOf]
    | some t =>
      by_cases hrt : r < t
      · simp [verifyStep, failOf, hrt]
      · simp [verifyStep, failOf, hrt]

theorem verifyLoop_eq (pairs : List ((Value × Option Int) × Int)) :
    verifyLoop pairs =
      ((pairs.filterMap failOf).isEmpty, pairs.filterMap failOf) := by
  simpa [verifyLoop] using verifyStep_foldl (true, []) pairs

theorem verifyLoop_append_one (pairs : List ((Value × Option Int) × Int))
    (p : (Value × Option Int) × Int) :
    verifyLoop (pairs ++ [p]) = verifyStep (verifyLoop pairs) p := by
  unfold verifyLoop
  rw [List.foldl_append]
  rfl

theorem verifyLoop_flag_iff (pairs : List ((Value × Option Int) × Int)) :
    (verifyLoop pairs).1 = true ↔ (verifyLoop pairs).2 = [] := by
  rw [verifyLoop_eq]
  simp [List.isEmpty_iff]

theorem samplerRes_total (env : Env) (comps : Dict) (key : String)
    (dsH batch : Value)
    (hwf : dcontains comps key = true → ArgsOk comps key) :
    ∃ out tr, SamplerRes env comps key dsH batch out tr ∧
      (tr.all fun e => !isTestTrainingEv e) = true := by
  by_cases hc : dcontains comps key = true
  · obtain ⟨f, hf⟩ := dcontains_eq_true_iff.mp hc
    obtain ⟨⟨args, ha⟩, ⟨kw, hkw⟩⟩ := hwf hc
    exact ⟨env.call f ([dsH, batch] ++ args) kw,
      [Event.samplerCall f dsH batch args kw],
      Or.inr ⟨f, args, kw, hf, ha, hkw, rfl, rfl⟩,
      by simp [isTestTrainingEv]⟩
  · exact ⟨dsH, [], Or.inl ⟨Bool.not_eq_true _ ▸ hc, rfl, rfl⟩, by simp⟩

/-! ## The claims -/

/-- C1: if `fixed` and `mutable` share a key, `run_recipe` raises the
overlap `RuntimeError` before any collaborator is invoked (empty trace);
if they are disjoint, the merge step succeeds and the merged dictionary
contains every key of both inputs. -/
theorem c1_disjointness (env : Env) (fixed mutable : Dict)
    (metrics : List (Value × Option Int)) :
    ((∃ k, dcontains fixed k = true ∧ dcontains mutable k = true) →
      (run_recipe env fixed mutable metrics).result =
        Except.error
          (Err.runtimeError "Fixed and mutable components cannot overlap") ∧
      (run_recipe env fixed mutable metrics).trace = []) ∧
    ((∀ k, dcontains fixed k = true → dcontains mutable k = false) →
      (∀ s, (stageMerge fixed mutable).run s =
        EStateM.Result.ok (addMissingArgs (mergeDicts fixed mutable)) s) ∧
      ∀ k, dcontains fixed k = true ∨ dcontains mutable k = true →
        dcontains (mergeDicts fixed mutable) k = true) := by
  constructor
  · intro hov
    have h : hasOverlap fixed mutable = true := hasOverlap_eq_true_iff.mpr hov
    unfold run_recipe
    simp only [runRecipeM, run_bind, run_get, stageMerge_run_overlap h]
    simp
  · intro hdisj
    have hnot : ¬ hasOverlap fixed mutable = true := by
      rw [hasOverlap_eq_true_iff]
      rintro ⟨k, hf, hm⟩
      rw [hdisj k hf] at hm
      cases hm
    have hov : hasOverlap fixed mutable = false := Bool.not_eq_true _ ▸ hnot
    refine ⟨fun s => stageMerge_run_ok hov s, ?_⟩
    intro k hk
    rw [dcontains_mergeDicts]
    rcases hk with h | h <;> simp [h]

/-- Witness for C1 at concrete inputs: an overlapping pair raises the
overlap error, and a disjoint pair merges to a dictionary containing a key
of each input. -/
theorem c1_disjointness_witness :
    (run_recipe envA [("model", Value.vatom 1)] [("model", Value.vatom 2)]
      []).result =
      Except.error
        (Err.runtimeError "Fixed and mutable components cannot overlap") ∧
    dcontains (mergeDicts fixedA mutableA) "model" = true ∧
    dcontains (mergeDicts fixedA mutableA) "epochs" = true := by
  refine ⟨((c1_disjointness envA [("model", Value.vatom 1)]
    [("model", Value.vatom 2)] []).1 ⟨"model", rfl, rfl⟩).1, ?_, ?_⟩
  · refine ((c1_disjointness envA fixedA mutableA []).2 ?_).2 "model"
      (Or.inl rfl)
    intro k hf
    have hk : k ∈ dkeys fixedA := mem_dkeys_iff.mpr hf
    have hk2 : k = "model" ∨ k = "executor" := by
      simpa [fixedA, dkeys] using hk
    rcases hk2 with rfl | rfl <;> rfl
  · refine ((c1_disjointness envA fixedA mutableA []).2 ?_).2 "epochs"
      (Or.inr rfl)
    intro k hf
    have hk : k ∈ dkeys fixedA := mem_dkeys_iff.mpr hf
    have hk2 : k = "model" ∨ k = "executor" := by
      simpa [fixedA, dkeys] using hk
    rcases hk2 with rfl | rfl <;> rfl

/-- C2: every key of the merged dictionary that is not reserved and not
already `_args` / `_kwargs`-suffixed gets both companions in the normalized
dictionary, with the empty tuple / empty dict exactly when the caller did
not supply them, and no caller-supplied binding is ever overwritten. -/
theorem c2_args_completion (fixed mutable : Dict) (k : String)
    (hk : k ∈ dkeys (mergeDicts fixed mutable))
    (hres : reservedKeys.contains k = false)
    (ha : endsWithStr k "_args" = false)
    (hkw : endsWithStr k "_kwargs" = false) :
    dcontains (addMissingArgs (mergeDicts fixed mutable))
      (k ++ "_args") = true ∧
    dcontains (addMissingArgs (mergeDicts fixed mutable))
      (k ++ "_kwargs") = true ∧
    (dfind (mergeDicts fixed mutable) (k ++ "_args") = none →
      dfind (addMissingArgs (mergeDicts fixed mutable)) (k ++ "_args") =
        some (Value.vtuple [])) ∧
    (dfind (mergeDicts fixed mutable) (k ++ "_kwargs") = none →
      dfind (addMissingArgs (mergeDicts fixed mutable)) (k ++ "_kwargs") =
        some (Value.vdict [])) ∧
    (∀ k2 v, dfind (mergeDicts fixed mutable) k2 = some v →
      dfind (addMissingArgs (mergeDicts fixed mutable)) k2 = some v) := by
  have hg : (reservedKeys.contains k || endsWithStr k "_args" ||
      endsWithStr k "_kwargs") = false := by
    rw [hres, ha, hkw]
    rfl
  have hcont := dcontains_foldl_completeKey_self
    (dkeys (mergeDicts fixed mutable)) (mergeDicts fixed mutable) hk hg
  unfold addMissingArgs
  refine ⟨hcont.1, hcont.2, ?_, ?_, ?_⟩
  · intro h0
    rcases dfind_foldl_completeKey_default_args
      (dkeys (mergeDicts fixed mutable)) (mergeDicts fixed mutable) h0 with
      h | h
    · exfalso
      have := hcont.1
      rw [dcontains_eq_false_iff.mpr h] at this
      cases this
    · exact h
  · intro h0
    rcases dfind_foldl_completeKey_default_kwargs
      (dkeys (mergeDicts fixed mutable)) (mergeDicts fixed mutable) h0 with
      h | h
    · exfalso
      have := hcont.2
      rw [dcontains_eq_false_iff.mpr h] at this
      cases this
    · exact h
  · intro k2 v hv
    exact dfind_foldl_completeKey_of_some _ _ hv

/-- Witness for C2 at a concrete merged configuration: the key `model` of
`fixedA ∪ mutableA` receives defaulted empty companions. -/
theorem c2_args_completion_witness :
    dcontains (addMissingArgs (mergeDicts fixedA mutableA))
      "model_args" = true ∧
    dfind (addMissingArgs (mergeDicts fixedA mutableA)) "model_args" =
      some (Value.vtuple []) ∧
    dfind (addMissingArgs (mergeDicts fixedA mutableA)) "model_kwargs" =
      some (Value.vdict []) := by
  have h := c2_args_completion fixedA mutableA "model" (by decide) rfl rfl rfl
  exact ⟨h.1, h.2.2.1 rfl, h.2.2.2.1 rfl⟩

/-- C4: the verification loop records a `FAIL` diagnostic for a pair with a
non-`None` threshold exactly when the result is strictly below the
threshold; an equal-or-above result leaves the loop state unchanged, and a
`None` threshold never fails, whatever the result. -/
theorem c4_threshold_semantics (pre : List ((Value × Option Int) × Int))
    (m : Value) (t r : Int) :
    ((verifyLoop (pre ++ [((m, some t), r)])).2 =
      (verifyLoop pre).2 ++ [Diag.fail m r t] ↔ r < t) ∧
    (¬ r < t → verifyLoop (pre ++ [((m, some t), r)]) = verifyLoop pre) ∧
    verifyLoop (pre ++ [((m, none), r)]) = verifyLoop pre := by
  refine ⟨?_, ?_, ?_⟩
  · rw [verifyLoop_append_one]
    constructor
    · intro h
      by_contra hrt
      rw [show verifyStep (verifyLoop pre) ((m, some t), r) = verifyLoop pre
        from by simp [verifyStep, hrt]] at h
      simp at h
    · intro hrt
      simp [verifyStep, hrt]
  · intro hrt
    rw [verifyLoop_append_one]
    simp [verifyStep, hrt]
  · rw [verifyLoop_append_one]
    simp [verifyStep]

/-- Witness for C4: a result equal to its threshold changes nothing, a
result below it appends exactly one `FAIL` diagnostic. -/
theorem c4_threshold_semantics_witness :
    verifyLoop [((Value.vatom 0, some (5 : Int)), (5 : Int))] =
      verifyLoop [] ∧
    (verifyLoop [((Value.vatom 0, some (5 : Int)), (3 : Int))]).2 =
      (verifyLoop []).2 ++ [Diag.fail (Value.vatom 0) 3 5] := by
  constructor
  · exact (c4_threshold_semantics [] (Value.vatom 0) 5 5).2.1 (by decide)
  · exact (c4_threshold_semantics [] (Value.vatom 0) 5 3).1.mpr (by decide)

/-- C9: `run_recipe` never mutates the caller's `fixed` and `mutable`
mappings, whether it returns or raises: all defaulted entries go into the
freshly built merged dictionary only. -/
theorem c9_no_caller_mutation (env : Env) (fixed mutable : Dict)
    (metrics : List (Value × Option Int)) :
    (run_recipe env fixed mutable metrics).fixedFinal = fixed ∧
    (run_recipe env fixed mutable metrics).mutableFinal = mutable := by
  unfold run_recipe
  have h := keepsFM_runRecipeM env
    { fixed := fixed, mutable := mutable, metrics := metrics,
      trace := [], diags := [], results := none }
  cases hr : (runRecipeM env).run
      { fixed := fixed, mutable := mutable, metrics := metrics,
        trace := [], diags := [], results := none } with
  | ok b s =>
    rw [hr] at h
    simpa [resState] using h
  | error e s =>
    rw [hr] at h
    simpa [resState] using h

/-- C10: the implicit wall-clock entry is appended to the caller's own
`metrics` list in place: whenever `run_recipe` returns normally the caller's
list has grown by exactly that one entry, and on a configuration whose only
defect is a missing `epochs` key the append still persists even though the
call raises, because the append precedes the epochs check. -/
theorem c10_metrics_mutation (env : Env) (fixed mutable : Dict)
    (metrics : List (Value × Option Int)) :
    (∀ b, (run_recipe env fixed mutable metrics).result = Except.ok b →
      (run_recipe env fixed mutable metrics).metricsFinal =
        metrics ++ [(env.wallclockTime, none)]) ∧
    (∀ (comps : Dict) (ds ncls mdl batch net inode onode tset vset tsam vsam
        exf opf opnode net2 execv optv : Value)
      (sshape margs dargs eargs oargs : List Value)
      (mkw dkw ekw okw : Dict) (ttr vtr : List Event),
      hasOverlap fixed mutable = false →
      addMissingArgs (mergeDicts fixed mutable) = comps →
      dfind comps "dataset" = some ds →
      env.dataset_shape ds = ncls :: sshape →
      dfind comps "model" = some mdl →
      dfind comps "batch_size" = some batch →
      dfind comps "model_args" = some (Value.vtuple margs) →
      dfind comps "model_kwargs" = some (Value.vdict mkw) →
      env.create_model mdl batch margs sshape mkw = (net, inode, onode) →
      env.call (env.dataset_loss ds)
        [Value.vlist [onode, Value.vstr "label"], Value.vstr "loss"] [] =
        opnode →
      env.add_operation net opnode = net2 →
      dfind comps "dataset_args" = some (Value.vtuple dargs) →
      dfind comps "dataset_kwargs" = some (Value.vdict dkw) →
      env.load_dataset ds inode (Value.vstr "label") dargs dkw =
        (tset, vset) →
      SamplerRes env comps "train_sampler" tset batch tsam ttr →
      SamplerRes env comps "validation_sampler" vset batch vsam vtr →
      dfind comps "executor" = some exf →
      dfind comps "executor_args" = some (Value.vtuple eargs) →
      dfind comps "executor_kwargs" = some (Value.vdict ekw) →
      env.call exf ([net2] ++ eargs) ekw = execv →
      dfind comps "optimizer" = some opf →
      dfind comps "optimizer_args" = some (Value.vtuple oargs) →
      dfind comps "optimizer_kwargs" = some (Value.vdict okw) →
      env.call opf ([execv, Value.vstr "loss"] ++ oargs) okw = optv →
      dcontains comps "epochs" = false →
      (run_recipe env fixed mutable metrics).result =
        Except.error
          (Err.syntaxError "Epochs must be specified in training recipe") ∧
      (run_recipe env fixed mutable metrics).metricsFinal =
        metrics ++ [(env.wallclockTime, none)]) := by
  constructor
  · intro b hb
    unfold run_recipe at hb ⊢
    cases hr : (runRecipeM env).run
        { fixed := fixed, mutable := mutable, metrics := metrics,
          trace := [], diags := [], results := none } with
    | ok b2 s =>
      have hm := runRecipeM_ok_metrics hr
      simp [hm]
    | error e s =>
      rw [hr] at hb
      simp at hb
  · intro comps ds ncls mdl batch net inode onode tset vset tsam vsam exf opf
      opnode net2 execv optv sshape margs dargs eargs oargs mkw dkw ekw okw
      ttr vtr hov hcomps hds hsh hm hb hma hmk hcm hopn hnet2 hda hdk hld
      hts hvs hex hea hek hexec hop hoa hok hoptv hepn
    rw [run_recipe_missing_epochs env fixed mutable metrics hov hcomps hds
      hsh hm hb hma hmk hcm hopn hnet2 hda hdk hld hts hvs hex hea hek hexec
      hop hoa hok hoptv hepn]
    exact ⟨rfl, rfl⟩

/-- Witness for C10: on a full concrete configuration the caller's metric
list gains the wall-clock entry; dropping only `epochs` still raises after
the append has happened. -/
theorem c10_metrics_mutation_witness :
    (run_recipe envA fixedA mutableA metricsA).metricsFinal =
      metricsA ++ [(envA.wallclockTime, none)] ∧
    (run_recipe envA fixedA mutableB metricsA).result =
      Except.error
        (Err.syntaxError "Epochs must be specified in training recipe") ∧
    (run_recipe envA fixedA mutableB metricsA).metricsFinal =
      metricsA ++ [(envA.wallclockTime, none)] := by
  have ha := (c10_metrics_mutation envA fixedA mutableA metricsA).1 true rfl
  have hb := (c10_metrics_mutation envA fixedA mutableB metricsA).2
    (addMissingArgs (mergeDicts fixedA mutableB))
    (Value.vatom 13) (Value.vnat 10) (Value.vatom 11) (Value.vnat 32)
    (Value.vatom 1) (Value.vstr "in") (Value.vstr "out")
    (Value.vatom 2) (Value.vatom 3) (Value.vatom 2) (Value.vatom 3)
    (Value.vatom 12) (Value.vatom 14)
    (Value.vtuple [Value.vatom 100,
      Value.vlist [Value.vstr "out", Value.vstr "label"], Value.vstr "loss"])
    (Value.vatom 1)
    (Value.vtuple [Value.vatom 12, Value.vatom 1])
    (Value.vtuple [Value.vatom 14, Value.vtuple [Value.vatom 12,
      Value.vatom 1], Value.vstr "loss"])
    [Value.vnat 28, Value.vnat 28] [] [] [] [] [] [] [] [] [] []
    rfl rfl rfl rfl rfl rfl rfl rfl rfl rfl rfl rfl rfl rfl
    (Or.inl ⟨rfl, rfl, rfl⟩) (Or.inl ⟨rfl, rfl, rfl⟩)
    rfl rfl rfl rfl rfl rfl rfl rfl rfl
  exact ⟨ha, hb.1, hb.2⟩

/-- C5: on a successfully resolved run, `run_recipe` returns `True` exactly
when no metric failure was recorded; the verification loop walks every
metric/result pair (its diagnostics are the `filterMap` of the failure test
over the whole zipped list, so a failure never aborts the loop), and the
printed output is one `FAIL` line per failing pair followed by `PASSED`
exactly on overall success. -/
theorem c5_verdict_iff_no_failures
    (env : Env) (fixed mutable : Dict) (metrics : List (Value × Option Int))
    {comps : Dict}
    {ds ncls mdl batch net inode onode tset vset tsam vsam exf opf opnode
      net2 execv optv ep ev : Value}
    {sshape margs dargs eargs oargs : List Value}
    {mkw dkw ekw okw : Dict} {ttr vtr : List Event} {rs : List Int}
    (hov : hasOverlap fixed mutable = false)
    (hcomps : addMissingArgs (mergeDicts fixed mutable) = comps)
    (hds : dfind comps "dataset" = some ds)
    (hsh : env.dataset_shape ds = ncls :: sshape)
    (hm : dfind comps "model" = some mdl)
    (hb : dfind comps "batch_size" = some batch)
    (hma : dfind comps "model_args" = some (Value.vtuple margs))
    (hmk : dfind comps "model_kwargs" = some (Value.vdict mkw))
    (hcm : env.create_model mdl batch margs sshape mkw = (net, inode, onode))
    (hopn : env.call (env.dataset_loss ds)
      [Value.vlist [onode, Value.vstr "label"], Value.vstr "loss"] [] = opnode)
    (hnet2 : env.add_operation net opnode = net2)
    (hda : dfind comps "dataset_args" = some (Value.vtuple dargs))
    (hdk : dfind comps "dataset_kwargs" = some (Value.vdict dkw))
    (hld : env.load_dataset ds inode (Value.vstr "label") dargs dkw =
      (tset, vset))
    (hts : SamplerRes env comps "train_sampler" tset batch tsam ttr)
    (hvs : SamplerRes env comps "validation_sampler" vset batch vsam vtr)
    (hex : dfind comps "executor" = some exf)
    (hea : dfind comps "executor_args" = some (Value.vtuple eargs))
    (hek : dfind comps "executor_kwargs" = some (Value.vdict ekw))
    (hexec : env.call exf ([net2] ++ eargs) ekw = execv)
    (hop : dfind comps "optimizer" = some opf)
    (hoa : dfind comps "optimizer_args" = some (Value.vtuple oargs))
    (hok : dfind comps "optimizer_kwargs" = some (Value.vdict okw))
    (hoptv : env.call opf ([execv, Value.vstr "loss"] ++ oargs) okw = optv)
    (hep : dfind comps "epochs" = some ep)
    (hev : EventsRes comps ev)
    (hrs : env.test_training execv tsam vsam optv ep batch onode
      (metrics.map Prod.fst ++ [env.wallclockTime]) ev = rs) :
    ((run_recipe env fixed mutable metrics).result = Except.ok true ↔
      ((metrics ++ [(env.wallclockTime, none)]).zip rs).filterMap failOf =
        []) ∧
    (run_recipe env fixed mutable metrics).result =
      Except.ok
        (verifyLoop ((metrics ++ [(env.wallclockTime, none)]).zip rs)).1 ∧
    (verifyLoop ((metrics ++ [(env.wallclockTime, none)]).zip rs)).2 =
      ((metrics ++ [(env.wallclockTime, none)]).zip rs).filterMap failOf ∧
    (run_recipe env fixed mutable metrics).diags =
      (verifyLoop ((metrics ++ [(env.wallclockTime, none)]).zip rs)).2 ++
      (if (verifyLoop ((metrics ++ [(env.wallclockTime, none)]).zip rs)).1
        then [Diag.passed] else []) := by
  rw [run_recipe_success env fixed mutable metrics hov hcomps hds hsh hm hb
    hma hmk hcm hopn hnet2 hda hdk hld hts hvs hex hea hek hexec hop hoa hok
    hoptv hep hev hrs]
  refine ⟨?_, rfl, ?_, rfl⟩
  · simp [verifyLoop_eq, List.isEmpty_iff]
  · rw [verifyLoop_eq]

/-- Witness for C5: the concrete passing run returns `True`, and the zipped
failure scan of its metrics is empty. -/
theorem c5_verdict_iff_no_failures_witness :
    (run_recipe envA fixedA mutableA metricsA).result = Except.ok true ∧
    ((metricsA ++ [(envA.wallclockTime, none)]).zip
      [(1 : Int), 1]).filterMap failOf = [] := by
  have h := c5_verdict_iff_no_failures envA fixedA mutableA metricsA
    rfl rfl rfl rfl rfl rfl rfl rfl rfl rfl rfl rfl rfl rfl
    (Or.inl ⟨rfl, rfl, rfl⟩) (Or.inl ⟨rfl, rfl, rfl⟩)
    rfl rfl rfl rfl rfl rfl rfl rfl rfl (Or.inr ⟨rfl, rfl⟩) rfl
  exact ⟨h.1.mpr rfl, rfl⟩

/-- C6: the metric list handed to the training loop is exactly the caller's
requested metrics in order followed by one wall-clock entry, that entry is
appended to the metrics list with a `None` threshold, and under the
training-loop length contract the result sequence has exactly one more
element than the explicit requests. -/
theorem c6_result_alignment
    (env : Env) (fixed mutable : Dict) (metrics : List (Value × Option Int))
    {comps : Dict}
    {ds ncls mdl batch net inode onode tset vset tsam vsam exf opf opnode
      net2 execv optv ep ev : Value}
    {sshape margs dargs eargs oargs : List Value}
    {mkw dkw ekw okw : Dict} {ttr vtr : List Event} {rs : List Int}
    (hov : hasOverlap fixed mutable = false)
    (hcomps : addMissingArgs (mergeDicts fixed mutable) = comps)
    (hds : dfind comps "dataset" = some ds)
    (hsh : env.dataset_shape ds = ncls :: sshape)
    (hm : dfind comps "model" = some mdl)
    (hb : dfind comps "batch_size" = some batch)
    (hma : dfind comps "model_args" = some (Value.vtuple margs))
    (hmk : dfind comps "model_kwargs" = some (Value.vdict mkw))
    (hcm : env.create_model mdl batch margs sshape mkw = (net, inode, onode))
    (hopn : env.call (env.dataset_loss ds)
      [Value.vlist [onode, Value.vstr "label"], Value.vstr "loss"] [] = opnode)
    (hnet2 : env.add_operation net opnode = net2)
    (hda : dfind comps "dataset_args" = some (Value.vtuple dargs))
    (hdk : dfind comps "dataset_kwargs" = some (Value.vdict dkw))
    (hld : env.load_dataset ds inode (Value.vstr "label") dargs dkw =
      (tset, vset))
    (hts : SamplerRes env comps "train_sampler" tset batch tsam ttr)
    (hvs : SamplerRes env comps "validation_sampler" vset batch vsam vtr)
    (hex : dfind comps "executor" = some exf)
    (hea : dfind comps "executor_args" = some (Value.vtuple eargs))
    (hek : dfind comps "executor_kwargs" = some (Value.vdict ekw))
    (hexec : env.call exf ([net2] ++ eargs) ekw = execv)
    (hop : dfind comps "optimizer" = some opf)
    (hoa : dfind comps "optimizer_args" = some (Value.vtuple oargs))
    (hok : dfind comps "optimizer_kwargs" = some (Value.vdict okw))
    (hoptv : env.call opf ([execv, Value.vstr "loss"] ++ oargs) okw = optv)
    (hep : dfind comps "epochs" = some ep)
    (hev : EventsRes comps ev)
    (hrs : env.test_training execv tsam vsam optv ep batch onode
      (metrics.map Prod.fst ++ [env.wallclockTime]) ev = rs)
    (hlen : ∀ e t v o ep2 b onn ms ev2,
      (env.test_training e t v o ep2 b onn ms ev2).length = ms.length) :
    Event.testTraining execv tsam vsam optv ep batch onode
      (metrics.map Prod.fst ++ [env.wallclockTime]) ev ∈
      (run_recipe env fixed mutable metrics).trace ∧
    (run_recipe env fixed mutable metrics).metricsFinal =
      metrics ++ [(env.wallclockTime, none)] ∧
    (run_recipe env fixed mutable metrics).results = some rs ∧
    rs.length = metrics.length + 1 := by
  rw [run_recipe_success env fixed mutable metrics hov hcomps hds hsh hm hb
    hma hmk hcm hopn hnet2 hda hdk hld hts hvs hex hea hek hexec hop hoa hok
    hoptv hep hev hrs]
  refine ⟨by simp, rfl, rfl, ?_⟩
  rw [← hrs, hlen]
  simp

/-- Witness for C6: the concrete run hands the training loop the requested
metric plus the wall-clock entry and yields two results for one request. -/
theorem c6_result_alignment_witness :
    (run_recipe envA fixedA mutableA metricsA).results =
      some [(1 : Int), 1] ∧
    (run_recipe envA fixedA mutableA metricsA).metricsFinal =
      metricsA ++ [(envA.wallclockTime, none)] ∧
    ([(1 : Int), 1].length = metricsA.length + 1) := by
  have h := c6_result_alignment envA fixedA mutableA metricsA
    rfl rfl rfl rfl rfl rfl rfl rfl rfl rfl rfl rfl rfl rfl
    (Or.inl ⟨rfl, rfl, rfl⟩) (Or.inl ⟨rfl, rfl, rfl⟩)
    rfl rfl rfl rfl rfl rfl rfl rfl rfl (Or.inr ⟨rfl, rfl⟩) rfl
    (by intro e t v o ep2 b onn ms ev2; simp [envA])
  exact ⟨h.2.2.1, h.2.1, h.2.2.2⟩

/-- C7: each optional sampler key, when present, makes the corresponding
sampler the factory applied to `(dataset handle, batch_size, *args,
**kwargs)`, with the call recorded in the trace; when absent, the raw
dataset handle itself is handed to the training loop as the sampler. -/
theorem c7_sampler_resolution
    (env : Env) (fixed mutable : Dict) (metrics : List (Value × Option Int))
    {comps : Dict}
    {ds ncls mdl batch net inode onode tset vset exf opf opnode
      net2 execv optv ep ev : Value}
    {sshape margs dargs eargs oargs : List Value}
    {mkw dkw ekw okw : Dict}
    (hov : hasOverlap fixed mutable = false)
    (hcomps : addMissingArgs (mergeDicts fixed mutable) = comps)
    (hds : dfind comps "dataset" = some ds)
    (hsh : env.dataset_shape ds = ncls :: sshape)
    (hm : dfind comps "model" = some mdl)
    (hb : dfind comps "batch_size" = some batch)
    (hma : dfind comps "model_args" = some (Value.vtuple margs))
    (hmk : dfind comps "model_kwargs" = some (Value.vdict mkw))
    (hcm : env.create_model mdl batch margs sshape mkw = (net, inode, onode))
    (hopn : env.call (env.dataset_loss ds)
      [Value.vlist [onode, Value.vstr "label"], Value.vstr "loss"] [] = opnode)
    (hnet2 : env.add_operation net opnode = net2)
    (hda : dfind comps "dataset_args" = some (Value.vtuple dargs))
    (hdk : dfind comps "dataset_kwargs" = some (Value.vdict dkw))
    (hld : env.load_dataset ds inode (Value.vstr "label") dargs dkw =
      (tset, vset))
    (htsWF : dcontains comps "train_sampler" = true →
      ArgsOk comps "train_sampler")
    (hvsWF : dcontains comps "validation_sampler" = true →
      ArgsOk comps "validation_sampler")
    (hex : dfind comps "executor" = some exf)
    (hea : dfind comps "executor_args" = some (Value.vtuple eargs))
    (hek : dfind comps "executor_kwargs" = some (Value.vdict ekw))
    (hexec : env.call exf ([net2] ++ eargs) ekw = execv)
    (hop : dfind comps "optimizer" = some opf)
    (hoa : dfind comps "optimizer_args" = some (Value.vtuple oargs))
    (hok : dfind comps "optimizer_kwargs" = some (Value.vdict okw))
    (hoptv : env.call opf ([execv, Value.vstr "loss"] ++ oargs) okw = optv)
    (hep : dfind comps "epochs" = some ep)
    (hev : EventsRes comps ev) :
    ∃ tsam vsam,
      Event.testTraining execv tsam vsam optv ep batch onode
        (metrics.map Prod.fst ++ [env.wallclockTime]) ev ∈
        (run_recipe env fixed mutable metrics).trace ∧
      (dcontains comps "train_sampler" = false → tsam = tset) ∧
      (∀ f args kw, dfind comps "train_sampler" = some f →
        dfind comps "train_sampler_args" = some (Value.vtuple args) →
        dfind comps "train_sampler_kwargs" = some (Value.vdict kw) →
        tsam = env.call f ([tset, batch] ++ args) kw ∧
        Event.samplerCall f tset batch args kw ∈
          (run_recipe env fixed mutable metrics).trace) ∧
      (dcontains comps "validation_sampler" = false → vsam = vset) ∧
      (∀ f args kw, dfind comps "validation_sampler" = some f →
        dfind comps "validation_sampler_args" = some (Value.vtuple args) →
        dfind comps "validation_sampler_kwargs" = some (Value.vdict kw) →
        vsam = env.call f ([vset, batch] ++ args) kw ∧
        Event.samplerCall f vset batch args kw ∈
          (run_recipe env fixed mutable metrics).trace) := by
  obtain ⟨tsam, ttr, hts, -⟩ :=
    samplerRes_total env comps "train_sampler" tset batch htsWF
  obtain ⟨vsam, vtr, hvs, -⟩ :=
    samplerRes_total env comps "validation_sampler" vset batch hvsWF
  have hrun := run_recipe_success env fixed mutable metrics hov hcomps hds
    hsh hm hb hma hmk hcm hopn hnet2 hda hdk hld hts hvs hex hea hek hexec
    hop hoa hok hoptv hep hev rfl
  refine ⟨tsam, vsam, ?_, ?_, ?_, ?_, ?_⟩
  · rw [hrun]
    simp
  · intro hc
    rcases hts with ⟨-, h2, -⟩ | ⟨f, args, kw, hf, -, -, -, -⟩
    · exact h2
    · rw [dcontains_eq_false_iff.mp hc] at hf
      cases hf
  · intro f args kw hf hfa hfk
    rcases hts with ⟨hc, -, -⟩ | ⟨f2, args2, kw2, hf2, hfa2, hfk2, hout, htr⟩
    · rw [dcontains_eq_false_iff.mp hc] at hf
      cases hf
    · rw [hf] at hf2
      have hfa2a : dfind comps "train_sampler_args" =
        some (Value.vtuple args2) := hfa2
      have hfk2a : dfind comps "train_sampler_kwargs" =
        some (Value.vdict kw2) := hfk2
      rw [hfa] at hfa2a
      rw [hfk] at hfk2a
      injection hf2 with hf2
      injection hfa2a with hfa2a
      injection hfk2a with hfk2a
      injection hfa2a with hfa2a
      injection hfk2a with hfk2a
      subst hf2 hfa2a hfk2a
      subst hout htr
      refine ⟨rfl, ?_⟩
      rw [hrun]
      simp
  · intro hc
    rcases hvs with ⟨-, h2, -⟩ | ⟨f, args, kw, hf, -, -, -, -⟩
    · exact h2
    · rw [dcontains_eq_false_iff.mp hc] at hf
      cases hf
  · intro f args kw hf hfa hfk
    rcases hvs with ⟨hc, -, -⟩ | ⟨f2, args2, kw2, hf2, hfa2, hfk2, hout, htr⟩
    · rw [dcontains_eq_false_iff.mp hc] at hf
      cases hf
    · rw [hf] at hf2
      have hfa2a : dfind comps "validation_sampler_args" =
        some (Value.vtuple args2) := hfa2
      have hfk2a : dfind comps "validation_sampler_kwargs" =
        some (Value.vdict kw2) := hfk2
      rw [hfa] at hfa2a
      rw [hfk] at hfk2a
      injection hf2 with hf2
      injection hfa2a with hfa2a
      injection hfk2a with hfk2a
      injection hfa2a with hfa2a
      injection hfk2a with hfk2a
      subst hf2 hfa2a hfk2a
      subst hout htr
      refine ⟨rfl, ?_⟩
      rw [hrun]
      simp

/-- Witness for C7: with a configured train sampler the factory call is in
the trace and its value reaches the training loop; the unconfigured
validation sampler falls back to the raw validation-set handle. -/
theorem c7_sampler_resolution_witness :
    Event.samplerCall (Value.vatom 15) (Value.vatom 2) (Value.vnat 32) [] []
      ∈ (run_recipe envA fixedA mutableC metricsA).trace ∧
    Event.testTraining (Value.vtuple [Value.vatom 12, Value.vatom 1])
      (Value.vtuple [Value.vatom 15, Value.vatom 2, Value.vnat 32])
      (Value.vatom 3)
      (Value.vtuple [Value.vatom 14,
        Value.vtuple [Value.vatom 12, Value.vatom 1], Value.vstr "loss"])
      (Value.vnat 5) (Value.vnat 32) (Value.vstr "out")
      [Value.vatom 21, Value.vatom 9] Value.vnone
      ∈ (run_recipe envA fixedA mutableC metricsA).trace := by
  obtain ⟨tsam, vsam, hmem, hta, htp, hva, hvp⟩ :=
    c7_sampler_resolution envA fixedA mutableC metricsA
      rfl rfl rfl rfl rfl rfl rfl rfl rfl rfl rfl rfl rfl rfl
      (fun _ => ⟨⟨[], rfl⟩, ⟨[], rfl⟩⟩)
      (fun h => absurd h (by decide))
      rfl rfl rfl rfl rfl rfl rfl rfl rfl (Or.inr ⟨rfl, rfl⟩)
  obtain ⟨hts1, hts2⟩ := htp (Value.vatom 15) [] [] rfl rfl rfl
  have hv : vsam = Value.vatom 3 := hva rfl
  subst hts1
  subst hv
  exact ⟨hts2, hmem⟩

/-- C8: resolution queries the dataset's shape descriptor and derives
`num_classes` from its first element and `sample_shape` from the remaining
elements, instantiates the model factory with
`(batch, *model_args, shape=sample_shape, **model_kwargs)` producing the
`(network, input_node, output_node)` triple, and attaches
`loss_op([output_node, "label"], "loss")` to the network, in that order at
the head of the collaborator trace. -/
theorem c8_model_resolution
    (env : Env) (fixed mutable : Dict) (metrics : List (Value × Option Int))
    {comps : Dict}
    {ds ncls mdl batch net inode onode tset vset tsam vsam exf opf opnode
      net2 execv optv ep ev : Value}
    {sshape margs dargs eargs oargs : List Value}
    {mkw dkw ekw okw : Dict} {ttr vtr : List Event}
    (hov : hasOverlap fixed mutable = false)
    (hcomps : addMissingArgs (mergeDicts fixed mutable) = comps)
    (hds : dfind comps "dataset" = some ds)
    (hsh : env.dataset_shape ds = ncls :: sshape)
    (hm : dfind comps "model" = some mdl)
    (hb : dfind comps "batch_size" = some batch)
    (hma : dfind comps "model_args" = some (Value.vtuple margs))
    (hmk : dfind comps "model_kwargs" = some (Value.vdict mkw))
    (hcm : env.create_model mdl batch margs sshape mkw = (net, inode, onode))
    (hopn : env.call (env.dataset_loss ds)
      [Value.vlist [onode, Value.vstr "label"], Value.vstr "loss"] [] = opnode)
    (hnet2 : env.add_operation net opnode = net2)
    (hda : dfind comps "dataset_args" = some (Value.vtuple dargs))
    (hdk : dfind comps "dataset_kwargs" = some (Value.vdict dkw))
    (hld : env.load_dataset ds inode (Value.vstr "label") dargs dkw =
      (tset, vset))
    (hts : SamplerRes env comps "train_sampler" tset batch tsam ttr)
    (hvs : SamplerRes env comps "validation_sampler" vset batch vsam vtr)
    (hex : dfind comps "executor" = some exf)
    (hea : dfind comps "executor_args" = some (Value.vtuple eargs))
    (hek : dfind comps "executor_kwargs" = some (Value.vdict ekw))
    (hexec : env.call exf ([net2] ++ eargs) ekw = execv)
    (hop : dfind comps "optimizer" = some opf)
    (hoa : dfind comps "optimizer_args" = some (Value.vtuple oargs))
    (hok : dfind comps "optimizer_kwargs" = some (Value.vdict okw))
    (hoptv : env.call opf ([execv, Value.vstr "loss"] ++ oargs) okw = optv)
    (hep : dfind comps "epochs" = some ep)
    (hev : EventsRes comps ev) :
    (∃ tr2, (run_recipe env fixed mutable metrics).trace =
      [Event.datasetLoss ds, Event.datasetShape ds,
       Event.createModel mdl batch margs
         ((env.dataset_shape ds).drop 1) mkw,
       Event.lossOpCall (env.dataset_loss ds)
         [Value.vlist [onode, Value.vstr "label"], Value.vstr "loss"],
       Event.addOperation net opnode] ++ tr2) ∧
    (env.dataset_shape ds).head? = some ncls ∧
    sshape = (env.dataset_shape ds).drop 1 ∧
    env.create_model mdl batch margs sshape mkw = (net, inode, onode) ∧
    env.call (env.dataset_loss ds)
      [Value.vlist [onode, Value.vstr "label"], Value.vstr "loss"] [] =
      opnode := by
  have hdrop : (env.dataset_shape ds).drop 1 = sshape := by
    rw [hsh]
    rfl
  rw [run_recipe_success env fixed mutable metrics hov hcomps hds hsh hm hb
    hma hmk hcm hopn hnet2 hda hdk hld hts hvs hex hea hek hexec hop hoa hok
    hoptv hep hev rfl]
  refine ⟨?_, ?_, hdrop.symm, hcm, hopn⟩
  · refine ⟨[Event.loadDataset ds inode (Value.vstr "label") dargs dkw] ++
      ttr ++ vtr ++
      [Event.executorCall exf net2 eargs ekw,
       Event.optimizerCall opf execv (Value.vstr "loss") oargs okw,
       Event.testTraining execv tsam vsam optv ep batch onode
         (metrics.map Prod.fst ++ [env.wallclockTime]) ev], ?_⟩
    rw [hdrop]
    simp
  · rw [hsh]
    rfl

/-- Witness for C8 on the concrete run: the resolution prefix of the trace,
and the head/tail split of the shape descriptor. -/
theorem c8_model_resolution_witness :
    (∃ tr2, (run_recipe envA fixedA mutableA metricsA).trace =
      [Event.datasetLoss (Value.vatom 13), Event.datasetShape (Value.vatom 13),
       Event.createModel (Value.vatom 11) (Value.vnat 32) []
         ((envA.dataset_shape (Value.vatom 13)).drop 1) [],
       Event.lossOpCall (envA.dataset_loss (Value.vatom 13))
         [Value.vlist [Value.vstr "out", Value.vstr "label"],
          Value.vstr "loss"],
       Event.addOperation (Value.vatom 1)
         (Value.vtuple [Value.vatom 100,
           Value.vlist [Value.vstr "out", Value.vstr "label"],
           Value.vstr "loss"])] ++ tr2) ∧
    (envA.dataset_shape (Value.vatom 13)).head? = some (Value.vnat 10) := by
  have h := c8_model_resolution envA fixedA mutableA metricsA
    rfl rfl rfl rfl rfl rfl rfl rfl rfl rfl rfl rfl rfl rfl
    (Or.inl ⟨rfl, rfl, rfl⟩) (Or.inl ⟨rfl, rfl, rfl⟩)
    rfl rfl rfl rfl rfl rfl rfl rfl rfl (Or.inr ⟨rfl, rfl⟩)
  exact ⟨h.1, h.2.1⟩

/-- C3: a merged configuration missing any required key makes `run_recipe`
raise a `SyntaxError` whose message is the distinct message of a missing
required component (each message starts with that component's display
name), and the training-loop collaborator is never invoked. -/
theorem c3_missing_required
    (env : Env) (fixed mutable : Dict) (metrics : List (Value × Option Int))
    {comps : Dict}
    (hcomps : addMissingArgs (mergeDicts fixed mutable) = comps)
    (hov : hasOverlap fixed mutable = false)
    (hargs : ∀ k, k ∈ ["dataset", "model", "train_sampler",
      "validation_sampler", "executor", "optimizer"] →
      dcontains comps k = true → ArgsOk comps k)
    (hshape : ∀ ds, dfind comps "dataset" = some ds →
      env.dataset_shape ds ≠ [])
    (hmiss : ∃ r, r ∈ requiredKeys ∧ dcontains comps r = false) :
    (∃ r, r ∈ requiredKeys ∧ dcontains comps r = false ∧
      (run_recipe env fixed mutable metrics).result =
        Except.error (Err.syntaxError (requiredMsg r))) ∧
    ((run_recipe env fixed mutable metrics).trace.all
      fun e => !isTestTrainingEv e) = true ∧
    (∀ r1, r1 ∈ requiredKeys → ∀ r2, r2 ∈ requiredKeys →
      requiredMsg r1 = requiredMsg r2 → r1 = r2) ∧
    (∀ r, r ∈ requiredKeys →
      ((requiredTitle r).data.isPrefixOf (requiredMsg r).data) = true) := by
  have main : (∃ r, r ∈ requiredKeys ∧ dcontains comps r = false ∧
      (run_recipe env fixed mutable metrics).result =
        Except.error (Err.syntaxError (requiredMsg r))) ∧
      ((run_recipe env fixed mutable metrics).trace.all
        fun e => !isTestTrainingEv e) = true := by
    by_cases hds : dcontains comps "dataset" = true
    · obtain ⟨ds, hdsv⟩ := dcontains_eq_true_iff.mp hds
      cases hshp : env.dataset_shape ds with
      | nil => exact absurd hshp (hshape ds hdsv)
      | cons ncls sshape =>
      by_cases hm : dcontains comps "model" = true
      · by_cases hbt : dcontains comps "batch_size" = true
        · obtain ⟨mdl, hmv⟩ := dcontains_eq_true_iff.mp hm
          obtain ⟨batch, hbv⟩ := dcontains_eq_true_iff.mp hbt
          obtain ⟨⟨margs, hma⟩, ⟨mkw, hmk⟩⟩ := hargs "model" (by simp) hm
          obtain ⟨⟨dargs, hda⟩, ⟨dkw, hdk⟩⟩ := hargs "dataset" (by simp) hds
          rcases hcme : env.create_model mdl batch margs sshape mkw with
            ⟨net, inode, onode⟩
          rcases hlde : env.load_dataset ds inode (Value.vstr "label")
            dargs dkw with ⟨tset, vset⟩
          obtain ⟨tsam, ttr, hts, httr⟩ := samplerRes_total env comps
            "train_sampler" tset batch
            (fun h => hargs "train_sampler" (by simp) h)
          obtain ⟨vsam, vtr, hvs, hvtr⟩ := samplerRes_total env comps
            "validation_sampler" vset batch
            (fun h => hargs "validation_sampler" (by simp) h)
          by_cases hex : dcontains comps "executor" = true
          · obtain ⟨exf, hexv⟩ := dcontains_eq_true_iff.mp hex
            obtain ⟨⟨eargs, hea⟩, ⟨ekw, hek⟩⟩ := hargs "executor" (by simp) hex
            by_cases hopt : dcontains comps "optimizer" = true
            · obtain ⟨opf, hopv⟩ := dcontains_eq_true_iff.mp hopt
              obtain ⟨⟨oargs, hoa⟩, ⟨okw, hok⟩⟩ :=
                hargs "optimizer" (by simp) hopt
              by_cases hept : dcontains comps "epochs" = true
              · exfalso
                obtain ⟨r, hrk, hrf⟩ := hmiss
                have hrc : r = "dataset" ∨ r = "model" ∨ r = "batch_size" ∨
                    r = "executor" ∨ r = "optimizer" ∨ r = "epochs" := by
                  simpa [requiredKeys] using hrk
                rcases hrc with rfl | rfl | rfl | rfl | rfl | rfl <;> simp_all
              · have heph : dcontains comps "epochs" = false :=
                  Bool.not_eq_true _ ▸ hept
                rw [run_recipe_missing_epochs env fixed mutable metrics hov
                  hcomps hdsv hshp hmv hbv hma hmk hcme rfl rfl hda hdk hlde
                  hts hvs hexv hea hek rfl hopv hoa hok rfl heph]
                refine ⟨⟨"epochs", by simp [requiredKeys], heph, rfl⟩, ?_⟩
                simp only [List.all_append, httr, hvtr]
                rfl
            · have hoph : dcontains comps "optimizer" = false :=
                Bool.not_eq_true _ ▸ hopt
              have hboth : (run_recipe env fixed mutable metrics).result =
                  Except.error (Err.syntaxError
                    "Optimizer must be specified in training recipe") ∧
                  ((run_recipe env fixed mutable metrics).trace.all
                    fun e => !isTestTrainingEv e) = true := by
                unfold run_recipe
                simp only [runRecipeM, run_bind, run_get,
                  stageMerge_run_ok hov, hcomps,
                  stageDatasetMeta_run_ok hdsv hshp,
                  stageNetwork_run_ok hbv hmv hma hmk hcme,
                  stageData_run_ok hda hdk hlde, stageSamplers_run hts hvs,
                  stageExecutor_run_ok hexv hea hek,
                  stageOptimizer_run_missing hoph, addTrace]
                refine ⟨by simp, ?_⟩
                simp only [List.all_append, httr, hvtr]
                rfl
              exact ⟨⟨"optimizer", by simp [requiredKeys], hoph, hboth.1⟩,
                hboth.2⟩
          · have hexh : dcontains comps "executor" = false :=
              Bool.not_eq_true _ ▸ hex
            have hboth : (run_recipe env fixed mutable metrics).result =
                Except.error (Err.syntaxError
                  "Executor must be specified in recipe") ∧
                ((run_recipe env fixed mutable metrics).trace.all
                  fun e => !isTestTrainingEv e) = true := by
              unfold run_recipe
              simp only [runRecipeM, run_bind, run_get,
                stageMerge_run_ok hov, hcomps,
                stageDatasetMeta_run_ok hdsv hshp,
                stageNetwork_run_ok hbv hmv hma hmk hcme,
                stageData_run_ok hda hdk hlde, stageSamplers_run hts hvs,
                stageExecutor_run_missing hexh, addTrace]
              refine ⟨by simp, ?_⟩
              simp only [List.all_append, httr, hvtr]
              rfl
            exact ⟨⟨"executor", by simp [requiredKeys], hexh, hboth.1⟩,
              hboth.2⟩
        · have hbth : dcontains comps "batch_size" = false :=
            Bool.not_eq_true _ ▸ hbt
          have hboth : (run_recipe env fixed mutable metrics).result =
              Except.error (Err.syntaxError
                "Batch size must be specified in training recipe") ∧
              ((run_recipe env fixed mutable metrics).trace.all
                fun e => !isTestTrainingEv e) = true := by
            unfold run_recipe
            simp only [runRecipeM, run_bind, run_get, stageMerge_run_ok hov,
              hcomps, stageDatasetMeta_run_ok hdsv hshp,
              stageNetwork_run_missing_batch hm hbth, addTrace]
            exact ⟨by simp, by rfl⟩
          exact ⟨⟨"batch_size", by simp [requiredKeys], hbth, hboth.1⟩,
            hboth.2⟩
      · have hmh : dcontains comps "model" = false :=
          Bool.not_eq_true _ ▸ hm
        have hboth : (run_recipe env fixed mutable metrics).result =
            Except.error (Err.syntaxError
              "Model must be specified in recipe") ∧
            ((run_recipe env fixed mutable metrics).trace.all
              fun e => !isTestTrainingEv e) = true := by
          unfold run_recipe
          simp only [runRecipeM, run_bind, run_get, stageMerge_run_ok hov,
            hcomps, stageDatasetMeta_run_ok hdsv hshp,
            stageNetwork_run_missing_model hmh, addTrace]
          exact ⟨by simp, by rfl⟩
        exact ⟨⟨"model", by simp [requiredKeys], hmh, hboth.1⟩, hboth.2⟩
    · have hdsh : dcontains comps "dataset" = false :=
        Bool.not_eq_true _ ▸ hds
      have hboth : (run_recipe env fixed mutable metrics).result =
          Except.error (Err.syntaxError
            "Dataset must be specified in training recipe") ∧
          ((run_recipe env fixed mutable metrics).trace.all
            fun e => !isTestTrainingEv e) = true := by
        unfold run_recipe
        simp only [runRecipeM, run_bind, run_get, stageMerge_run_ok hov,
          hcomps, stageDatasetMeta_run_missing hdsh]
        exact ⟨by simp, rfl⟩
      exact ⟨⟨"dataset", by simp [requiredKeys], hdsh, hboth.1⟩, hboth.2⟩
  obtain ⟨hex1, hall⟩ := main
  exact ⟨hex1, hall, by decide, by decide⟩

/-- Witness for C3: the concrete configuration lacking `epochs` raises the
distinct epochs message and never reaches the training loop. -/
theorem c3_missing_required_witness :
    (run_recipe envA fixedA mutableB metricsA).result =
      Except.error (Err.syntaxError (requiredMsg "epochs")) ∧
    ((run_recipe envA fixedA mutableB metricsA).trace.all
      fun e => !isTestTrainingEv e) = true := by
  have h := c3_missing_required envA fixedA mutableB metricsA rfl rfl
    (by
      intro k hk hc
      fin_cases hk <;>
        first
          | exact ⟨⟨[], rfl⟩, ⟨[], rfl⟩⟩
          | exact absurd hc (by decide))
    (by
      intro ds h
      rw [show dfind (addMissingArgs (mergeDicts fixedA mutableB))
        "dataset" = some (Value.vatom 13) from rfl] at h
      injection h with h
      subst h
      simp [envA])
    ⟨"epochs", by decide, rfl⟩
  obtain ⟨⟨r, hrk, hrf, hres⟩, hall, -, -⟩ := h
  fin_cases hrk <;>
    first
      | exact absurd hrf (by decide)
      | exact ⟨hres, hall⟩
